import Mathlib

/-!
Verification of the SeedLink client library core (libslink `slutils.c`).

The definitions below are a shallow embedding of the C source:

* `detect` embeds the static miniSEED framer `detect()` of `slutils.c`;
* `sl_sequence`, `update_stream`, `sl_collect`, `sl_collect_nb_size`,
  `sl_collect_nb` embed the functions of the same names;
* the receive buffer `databuf` is a `List Nat` of byte values, the two
  cursors `recptr`/`sendptr` are explicit as in the C struct `SLstat`;
* the host is modelled as little-endian (x86/ARM): a `uint16_t` field read
  out of a `memcpy`d header struct is the little-endian interpretation of
  the two underlying bytes, exactly as on such hosts;
* network and time effects (`sl_connect`, `sl_configlink`, `sl_send_info`,
  `sl_recvdata`, `select`, `sl_dtime`) are driven by an explicit
  environment record `TickEnv`, one per iteration of the primary loop;
* helpers whose source files are not part of the snapshot
  (`mseedformat.h`, `globmatch.c`, `genutils.c`, `network.c`) are modelled
  from the spec, each marked `Modelled from the spec:` in its doc comment.
-/

namespace Slink

/-- Read a byte from a buffer; a C read beyond the tracked bytes of the
8 KiB array yields the (zero-filled) remainder of the array. -/
def byteAt (l : List Nat) (i : Nat) : Nat := l.getD i 0

/-- Little-endian host read of a `uint16_t` at byte offset `i`. -/
def readU16LE (l : List Nat) (i : Nat) : Nat :=
  byteAt l i + 256 * byteAt l (i + 1)

/-- Little-endian host read of a `uint32_t` at byte offset `i`. -/
def readU32LE (l : List Nat) (i : Nat) : Nat :=
  byteAt l i + 256 * byteAt l (i + 1) + 65536 * byteAt l (i + 2) +
    16777216 * byteAt l (i + 3)

/-- Modelled from the spec: `sl_gswap2` (gswap.c is not in src/); swaps the
two bytes of a 16-bit quantity. -/
def swap16 (v : Nat) : Nat := (v % 65536) / 256 + 256 * (v % 256)

/-- `HO2u` of mseedformat.h: host-order read, swapped when `swapflag`. -/
def HO2u (v : Nat) (swapflag : Bool) : Nat := if swapflag then swap16 v else v

/-- Two's-complement value of the 32-bit truncation of `v`
(an `int32_t` receiving an unsigned value). -/
def toInt32 (v : Nat) : Int :=
  let w := v % 4294967296
  if w < 2147483648 then (w : Int) else (w : Int) - 4294967296

def isDigitByte (b : Nat) : Bool := 48 ≤ b && b ≤ 57

/-- Modelled from the spec: `MS2_ISVALIDHEADER` of mseedformat.h (not in
src/): the first 6 bytes are ASCII digits, byte 6 is one of `D R Q M` or
space, byte 7 is a space; checked at offset `off` of the buffer. -/
def ms2ValidHeaderAt (l : List Nat) (off : Nat) : Bool :=
  isDigitByte (byteAt l off) && isDigitByte (byteAt l (off + 1)) &&
  isDigitByte (byteAt l (off + 2)) && isDigitByte (byteAt l (off + 3)) &&
  isDigitByte (byteAt l (off + 4)) && isDigitByte (byteAt l (off + 5)) &&
  (byteAt l (off + 6) == 68 || byteAt l (off + 6) == 82 ||
   byteAt l (off + 6) == 81 || byteAt l (off + 6) == 77 ||
   byteAt l (off + 6) == 32) &&
  byteAt l (off + 7) == 32

/-- Modelled from the spec: `MS3_ISVALIDHEADER` of mseedformat.h (not in
src/): first byte `M`, second byte `S`, third byte the value 3. -/
def ms3ValidHeader (l : List Nat) : Bool :=
  byteAt l 0 == 77 && byteAt l 1 == 83 && byteAt l 2 == 3

/-- Modelled from the spec: the miniSEED 3 record length
`40 + sid_len + extra_len + data_len`, with the unsigned fields of the
fixed v3 header read little-endian at their standard offsets
(sid length at byte 33, extra-header length at 34, data length at 36). -/
def ms3Length (l : List Nat) : Nat :=
  40 + byteAt l 33 + readU16LE l 34 + readU32LE l 36

/-- Modelled from the spec: `MS_ISVALIDYEARDAY` of mseedformat.h (not in
src/): year in [1900, 2050] and day-of-year in [1, 366]. -/
def validYearDay (y d : Nat) : Bool :=
  1900 ≤ y && y ≤ 2050 && 1 ≤ d && d ≤ 366

/-- Outcome of the blockette-chain walk inside `detect`. -/
inductive BlktRes
  | err
  | fall
  | found (reclen : Nat)
deriving Repr, DecidableEq

/-- The blockette-chain loop of `detect` (slutils.c lines 1396-1431).
`fuel` bounds the iteration count; offsets strictly increase by at least 5
per step and the loop runs only while `blkt_offset ≤ recbuflen`, so fuel
`recbuflen + 1` can never be exhausted. The B1000 record length
`(unsigned int)1 << field` is modelled with the x86 shift semantics
(count taken mod 32). -/
def detectBlktLoop (r : List Nat) (recbuflen : Nat) (swapflag : Bool) :
    Nat → Nat → BlktRes
  | _, 0 => .fall
  | blkt_offset, fuel + 1 =>
    if blkt_offset ≠ 0 && decide (47 < blkt_offset) &&
        decide (blkt_offset ≤ recbuflen) then
      let blkt_type := HO2u (readU16LE r blkt_offset) swapflag
      let next_blkt := HO2u (readU16LE r (blkt_offset + 2)) swapflag
      if blkt_type == 1000 && decide (blkt_offset + 8 ≤ recbuflen) then
        .found (Nat.pow 2 (byteAt r (blkt_offset + 6) % 32))
      else if next_blkt ≠ 0 &&
          (decide (next_blkt < 4) || decide (next_blkt - 4 ≤ blkt_offset)) then
        .err
      else
        detectBlktLoop r recbuflen swapflag next_blkt fuel
    else .fall

/-- The 64-byte-offset scan for a following v2 fixed header inside
`detect` (slutils.c lines 1437-1451). -/
def detectScan (r : List Nat) (recbuflen : Nat) : Nat → Nat → Option Nat
  | _, 0 => none
  | off, fuel + 1 =>
    if off + 48 < recbuflen then
      if ms2ValidHeaderAt r off then some off
      else detectScan r recbuflen (off + 64) fuel
    else none

/-- The miniSEED framer `detect` of slutils.c: returns the record length
result (`> 0` length, `0` undetermined, `< 0` not detected) paired with
the detected format version out-parameter. -/
def detect (record : List Nat) (recbuflen : Nat) : Int × Nat :=
  if recbuflen < 48 then (-1, 0)
  else if ms3ValidHeader record then
    (toInt32 (ms3Length record), 3)
  else if ms2ValidHeaderAt record 0 then
    let yearRaw := readU16LE record 20
    let dayRaw := readU16LE record 22
    let swapflag := !(validYearDay yearRaw dayRaw)
    let blkt_offset := HO2u (readU16LE record 46) swapflag
    match detectBlktLoop record recbuflen swapflag blkt_offset (recbuflen + 1) with
    | .err => (-1, 2)
    | .found n => (toInt32 n, 2)
    | .fall =>
      match detectScan record recbuflen 64 (recbuflen + 1) with
      | some off => ((off : Int), 2)
      | none => (-1, 2)
  else (-1, 0)

/-- Modelled from the spec: `sl_strncpclean` (genutils.c is not in src/):
copy `len` characters, trimmed of trailing spaces. -/
def strncpclean (bs : List Nat) (len : Nat) : String :=
  String.mk ((((bs.take len).reverse.dropWhile (· == 32)).reverse).map Char.ofNat)

/-- Collect the characters of a glob bracket class up to the closing
bracket, returning the items and the remaining pattern. -/
def splitBracket : List Char → Option (List Char × List Char)
  | [] => none
  | ']' :: rest => some ([], rest)
  | c :: rest =>
    match splitBracket rest with
    | some (items, r) => some (c :: items, r)
    | none => none

/-- Whether character `a` matches the body of a glob character class
(single characters and `lo-hi` ranges). -/
def classMatch : List Char → Char → Bool
  | lo :: '-' :: hi :: rest, a => (lo ≤ a && a ≤ hi) || classMatch rest a
  | c :: rest, a => (c == a) || classMatch rest a
  | [], _ => false

/-- A glob class body with optional leading negation `!`. -/
def globClass (items : List Char) (a : Char) : Bool :=
  match items with
  | '!' :: rest => !(classMatch rest a)
  | _ => classMatch items a

/-- Fuel-structured core of the glob matcher: every recursive call
shortens the string or the pattern, so fuel beyond their combined length
is never exhausted. -/
def globFuel : Nat → List Char → List Char → Bool
  | 0, _, _ => false
  | fuel + 1, s, pat =>
    match s, pat with
    | s, [] => s.isEmpty
    | s, '*' :: p =>
      globFuel fuel s p ||
        (match s with
         | [] => false
         | _ :: s2 => globFuel fuel s2 ('*' :: p))
    | s, '?' :: p =>
      (match s with
       | [] => false
       | _ :: s2 => globFuel fuel s2 p)
    | s, '[' :: p =>
      (match s, splitBracket p with
       | a :: s2, some (items, p2) => globClass items a && globFuel fuel s2 p2
       | _, _ => false)
    | s, '\\' :: ch :: p =>
      (match s with
       | a :: s2 => (a == ch) && globFuel fuel s2 p
       | [] => false)
    | s, ch :: p =>
      (match s with
       | a :: s2 => (a == ch) && globFuel fuel s2 p
       | [] => false)

/-- Modelled from the spec: `sl_globmatch` (globmatch.c is not in src/):
shell-style glob matching of a string against a pattern with `*`, `?`,
bracket classes `[abc]` / `[a-z]` / `[!abc]`, and backslash escape.
First argument is the string, second the pattern, as at the call sites. -/
def sl_globmatch (s pat : List Char) : Bool :=
  globFuel (s.length + pat.length + 1) s pat

def isSpaceByte (b : Nat) : Bool := b == 32 || (9 ≤ b && b ≤ 13)

def hexDigitVal (b : Nat) : Option Nat :=
  if 48 ≤ b && b ≤ 57 then some (b - 48)
  else if 65 ≤ b && b ≤ 70 then some (b - 55)
  else if 97 ≤ b && b ≤ 102 then some (b - 87)
  else none

/-- Longest run of hexadecimal digit bytes at the head of the list. -/
def hexRun : List Nat → List Nat × List Nat
  | [] => ([], [])
  | b :: rest =>
    if (hexDigitVal b).isSome then
      let (ds, r) := hexRun rest
      (b :: ds, r)
    else ([], b :: rest)

def hexValue (ds : List Nat) : Nat :=
  ds.foldl (fun a b => 16 * a + (hexDigitVal b).getD 0) 0

/-- The C library `strtoul(nptr, &end, 16)` on a byte string, modelled per
the C standard: skip spaces, optional sign, optional `0x` prefix (consumed
only when a hex digit follows), longest hex-digit run; with no conversion
the end pointer is the start; a minus sign negates modulo 2^64 (the
64-bit `unsigned long`). Returns the value and the unconsumed tail. -/
def strtoul16 (l : List Nat) : Nat × List Nat :=
  let afterSpace := l.dropWhile isSpaceByte
  let (neg, afterSign) :=
    match afterSpace with
    | 43 :: r => (false, r)
    | 45 :: r => (true, r)
    | _ => (false, afterSpace)
  let afterPfx :=
    match afterSign with
    | 48 :: x :: r =>
      if (x == 120 || x == 88) &&
          (match r with
           | d :: _ => (hexDigitVal d).isSome
           | [] => false) then r
      else afterSign
    | _ => afterSign
  let (ds, rest) := hexRun afterPfx
  if ds.isEmpty then (0, l)
  else
    let v := hexValue ds % 18446744073709551616
    (if neg then (18446744073709551616 - v) % 18446744073709551616 else v, rest)

/-- A SeedLink framed packet view: 8 header bytes and the following
record bytes (the `msrecord` pointer reaches to the end of the receive
array), with the detected record length. -/
structure SLpacket where
  slhead : List Nat
  msrecord : List Nat
  reclen : Int
deriving Repr, DecidableEq

/-- The 2-byte SeedLink signature `SL`. -/
def sigSL : List Nat := [83, 76]

/-- The 6-byte INFO signature `SLINFO`. -/
def infoSignature : List Nat := [83, 76, 73, 78, 70, 79]

/-- `sl_sequence` of slutils.c: the packet sequence number, 0 for INFO
packets, -1 on error. The `seqnum & ~0xffffff` test on the 32-bit int is
rendered as the equivalent range check. -/
def sl_sequence (p : SLpacket) : Int :=
  if p.slhead.take 2 ≠ sigSL then -1
  else if p.slhead.take 6 = infoSignature then 0
  else
    let seqstr := (p.slhead.drop 2).take 6
    let pr := strtoul16 seqstr
    let seqnum := toInt32 pr.1
    if seqnum < 0 ∨ 16777215 < seqnum ∨ pr.2.headD 0 ≠ 0 then -1
    else seqnum

/-- Modelled from the spec: the leap-year rule of `sl_doy2md`
(genutils.c is not in src/). -/
def isLeapYear (y : Nat) : Bool := (y % 4 == 0 && y % 100 != 0) || y % 400 == 0

def monthLengths (leap : Bool) : List Nat :=
  [31, if leap then 29 else 28, 31, 30, 31, 30, 31, 31, 30, 31, 30, 31]

def doy2mdAux : List Nat → Nat → Nat → Nat × Nat
  | [], j, m => (m, j)
  | d :: rest, j, m => if j ≤ d then (m, j) else doy2mdAux rest (j - d) (m + 1)

/-- Modelled from the spec: `sl_doy2md` (genutils.c is not in src/):
day-of-year converted to month and day-of-month. -/
def sl_doy2md (year jday : Nat) : Nat × Nat :=
  doy2mdAux (monthLengths (isLeapYear year)) jday 1

/-- Zero-padded decimal rendering (`%0wd` for a non-negative value). -/
def padZero (w n : Nat) : String :=
  let s := toString n
  String.mk (List.replicate (w - s.length) '0') ++ s

/-- The `"%04d,%02d,%02d,%02d,%02d,%02d"` timestamp rendering performed
by `update_stream`. -/
def renderTimestamp (year month mday hh mm ss : Nat) : String :=
  padZero 4 year ++ "," ++ padZero 2 month ++ "," ++ padZero 2 mday ++ "," ++
    padZero 2 hh ++ "," ++ padZero 2 mm ++ "," ++ padZero 2 ss

/-- The year of a record's fixed header after `update_stream`'s
value-driven byte swap (host-read year outside [1900, 2050] means the
wire order was not the host order). -/
def recYear (ms : List Nat) : Nat :=
  let y := readU16LE ms 20
  if y < 1900 || 2050 < y then swap16 y else y

/-- The day-of-year of a record's fixed header after the byte swap
decided by the year test. -/
def recDay (ms : List Nat) : Nat :=
  let y := readU16LE ms 20
  let d := readU16LE ms 22
  if y < 1900 || 2050 < y then swap16 d else d

/-- The cleaned 2-character network code of a record. -/
def recNet (ms : List Nat) : String := strncpclean (ms.drop 18) 2

/-- The cleaned 5-character station code of a record. -/
def recSta (ms : List Nat) : String := strncpclean (ms.drop 8) 5

/-- The canonical `YYYY,MM,DD,hh,mm,ss` rendering of a record's start
time, with the day-of-year converted to month and day. -/
def recTimestamp (ms : List Nat) : String :=
  let md := sl_doy2md (recYear ms) (recDay ms)
  renderTimestamp (recYear ms) md.1 md.2 (byteAt ms 24) (byteAt ms 25) (byteAt ms 26)

/-- Stream subscription entry (struct `SLstream`; the chain is a list). -/
structure SLstream where
  net : String
  sta : String
  selectors : Option String
  seqnum : Int
  timestamp : String
deriving Repr, DecidableEq

/-- Whether an entry is the uni-station marker (`XX`/`UNI`). -/
def uniHead (e : SLstream) : Bool := e.net == "XX" && e.sta == "UNI"

/-- Whether a stream entry's patterns glob-match a record's cleaned
network and station codes (`sl_globmatch (net, curstream->net)` etc.). -/
def streamMatch (ms : List Nat) (e : SLstream) : Bool :=
  sl_globmatch (recNet ms).data e.net.data &&
    sl_globmatch (recSta ms).data e.sta.data

/-- `update_stream` of slutils.c: post a delivered record back to the
stream chain; returns the updated chain and 0 on success or -1 when
the sequence number is unreadable or no entry matched. -/
def update_stream (streams : List SLstream) (p : SLpacket) : List SLstream × Int :=
  let seqnum := sl_sequence p
  if seqnum = -1 then (streams, -1)
  else
    match streams with
    | [] => (streams, -1)
    | first :: rest =>
      if uniHead first then
        ({ first with seqnum := seqnum, timestamp := recTimestamp p.msrecord } :: rest, 0)
      else
        let upd := (first :: rest).map fun e =>
          if streamMatch p.msrecord e then
            { e with seqnum := seqnum, timestamp := recTimestamp p.msrecord }
          else e
        if (first :: rest).any (streamMatch p.msrecord) then (upd, 0)
        else (upd, -1)

/-- Connection state (the `sl_state` enum). -/
inductive SLState
  | down
  | up
  | data
deriving Repr, DecidableEq

/-- INFO query state (the `query_mode` enum). -/
inductive QueryMode
  | noQuery
  | infoQuery
  | keepAliveQuery
deriving Repr, DecidableEq

/-- Persistent connection state (struct `SLstat`). Times are whole
seconds; the embedded paths compare the C doubles only as differences
against integer intervals. -/
structure SLstat where
  databuf : List Nat
  recptr : Nat
  sendptr : Nat
  slpack : SLpacket
  expect_info : Bool
  netto_trig : Int
  netdly_trig : Int
  keepalive_trig : Int
  netto_time : Int
  netdly_time : Int
  keepalive_time : Int
  sl_state : SLState
  query_mode : QueryMode
deriving Repr, DecidableEq

/-- SeedLink connection description (struct `SLCD`). -/
structure SLCD where
  streams : List SLstream
  sladdr : Option String
  begin_time : Option String
  end_time : Option String
  resume : Bool
  multistation : Bool
  dialup : Bool
  batchmode : Nat
  lastpkttime : Bool
  terminate : Bool
  keepalive : Nat
  iotimeout : Nat
  netto : Nat
  netdly : Nat
  info : Option String
  link : Int
  stat : SLstat
deriving Repr, DecidableEq

/-- Modelled from the spec: `sl_checkslcd` (genutils.c is not in src/):
the configuration check fails when the descriptor lacks a server address
or mixes the uni-station entry with other entries; true means problem. -/
def sl_checkslcd (c : SLCD) : Bool :=
  c.sladdr.isNone || (c.streams.any uniHead && c.streams.length != 1)

/-- One primary-loop pass's worth of environment: the outcomes of the
network operations and the wall clock, all external to the embedded
state (network.c is not in src/; its operations are modelled from the
spec as environment-chosen outcomes). -/
structure TickEnv where
  connectFd : Option Nat
  configOk : Bool
  keepaliveSendOk : Bool
  infoSendOk : Bool
  selectRet : Int
  selectFdSet : Bool
  recvResult : Option (List Nat)
  now : Int
deriving Repr, DecidableEq

/-- Result of a collect call (`SLPACKET`, `SLTERMINATE`, `SLNOPACKET`). -/
inductive CollectRet
  | packet (p : SLpacket)
  | terminate
  | noPacket
deriving Repr, DecidableEq

/-- Closed-link check at the loop top (slutils.c lines 92-95). -/
def stepDownCheck (c : SLCD) : SLCD :=
  if c.link = -1 then { c with stat.sl_state := .down } else c

/-- Network-timeout check (slutils.c lines 98-106): a fired idle timer in
`Data` disconnects and goes down. -/
def stepNetto (c : SLCD) : SLCD :=
  if c.stat.sl_state = .data ∧ c.netto ≠ 0 ∧ 0 < c.stat.netto_trig then
    { c with link := -1, stat.sl_state := .down,
             stat.netto_trig := -1, stat.netdly_trig := -1 }
  else c

/-- Keepalive send check (slutils.c lines 108-120); the Bool reports
whether the network was contacted. -/
def stepKeepalive (c : SLCD) (sendOk : Bool) : SLCD × Bool :=
  if c.stat.sl_state = .data ∧ ¬c.stat.expect_info ∧ c.keepalive ≠ 0 ∧
      0 < c.stat.keepalive_trig then
    (if sendOk then
      { c with stat.query_mode := .keepAliveQuery, stat.expect_info := true,
               stat.keepalive_trig := -1 }
     else c, true)
  else (c, false)

/-- Pending in-stream INFO request send (slutils.c lines 122-136). -/
def stepInfoSend (c : SLCD) (sendOk : Bool) : SLCD × Bool :=
  if c.stat.sl_state = .data ∧ ¬c.stat.expect_info ∧ c.info.isSome then
    (if sendOk then
      { c with stat.query_mode := .infoQuery, stat.expect_info := true, info := none }
     else
      { c with stat.query_mode := .noQuery, info := none }, true)
  else (c, false)

/-- Connect attempt (slutils.c lines 144-154); `sl_connect` is modelled
from the spec (network.c is not in src/): on success the new socket
becomes the link and the state moves up; on failure the socket is
closed. Triggers are reset in both cases. -/
def stepConnect (c : SLCD) (fd : Option Nat) : SLCD × Bool :=
  if c.stat.sl_state = .down ∧ c.stat.netdly_trig = 0 then
    (match fd with
     | some n =>
       { c with link := (n : Int), stat.sl_state := .up,
                stat.netto_trig := -1, stat.netdly_trig := -1,
                stat.keepalive_trig := -1 }
     | none =>
       { c with link := -1, stat.netto_trig := -1, stat.netdly_trig := -1,
                stat.keepalive_trig := -1 }, true)
  else (c, false)

/-- Negotiation (slutils.c lines 157-196): in `Up`, either send a bare
INFO query (no streams configured) or run `sl_configlink`; when the
negotiation return is not -1, zero the buffer cursors and move to
`Data`; on failure disconnect and re-arm the delay. -/
def stepNegotiate (c : SLCD) (sendOk configOk : Bool) : SLCD × Bool :=
  if c.stat.sl_state = .up then
    if c.info.isSome ∧ c.streams = [] then
      let c2 :=
        if sendOk then
          { c with stat.query_mode := .infoQuery, stat.expect_info := true,
                   info := none }
        else
          { c with stat.query_mode := .noQuery, stat.expect_info := false,
                   info := none }
      ({ c2 with stat.recptr := 0, stat.sendptr := 0, stat.sl_state := .data }, true)
    else
      let c2 := { c with stat.expect_info := false }
      (if configOk then
        { c2 with stat.recptr := 0, stat.sendptr := 0, stat.sl_state := .data }
       else
        { c2 with link := -1, stat.netdly_trig := -1 }, true)
  else (c, false)

/-- The pre-processing section of a primary-loop pass when not
terminating (slutils.c lines 90-196, identical to lines 496-605). -/
def preData (c : SLCD) (e : TickEnv) : SLCD × Bool :=
  let c := stepDownCheck c
  let c := stepNetto c
  let k := stepKeepalive c e.keepaliveSendOk
  let i := stepInfoSend k.1 e.infoSendOk
  let n := stepConnect i.1 e.connectFd
  let g := stepNegotiate n.1 e.infoSendOk e.configOk
  (g.1, k.2 || i.2 || n.2 || g.2)

/-- The terminating branch of the blocking loop (slutils.c lines
198-206): disconnect and go down. -/
def termBranchB (c : SLCD) : SLCD :=
  { c with link := -1, stat.sl_state := .down }

/-- The terminating branch of the non-blocking pass (slutils.c lines
607-615): it disconnects but assigns `SL_DATA`, not `SL_DOWN`. -/
def termBranchNB (c : SLCD) : SLCD :=
  { c with link := -1, stat.sl_state := .data }

/-- The packet view built at the top of the buffer-processing loop
(slutils.c lines 214-216): header and record pointers into the buffer
and the framer's length over the unread window. -/
def mkPacket (c : SLCD) : SLpacket :=
  let sp := c.stat.sendptr
  { slhead := (c.stat.databuf.drop sp).take 8,
    msrecord := c.stat.databuf.drop (sp + 8),
    reclen := (detect (c.stat.databuf.drop (sp + 8)) (c.stat.recptr - sp)).1 }

/-- Outcome of one iteration of the buffer-processing loop. -/
inductive StepRes
  | fatal (c : SLCD)
  | needMore (c : SLCD)
  | consumed (c : SLCD)
  | deliver (c : SLCD) (p : SLpacket)
deriving Repr, DecidableEq

/-- Store the freshly built packet view in the session state (the
assignments at slutils.c lines 214-216). -/
def storePack (c : SLCD) : SLCD :=
  { c with stat.slpack := mkPacket c }

/-- The INFO-against-data classification of a complete packet (slutils.c
lines 232-278): the updated descriptor and the `retpacket` flag. -/
def packetDisposition (c : SLCD) (p : SLpacket) : SLCD × Bool :=
  if p.slhead.take 6 = infoSignature then
    let keep := c.stat.expect_info &&
      decide (c.stat.query_mode = .keepAliveQuery)
    let c1 :=
      if c.stat.expect_info ∧ byteAt p.slhead 7 ≠ 42 then
        { c with stat.expect_info := false }
      else c
    let c2 :=
      if c1.stat.query_mode ≠ .noQuery then
        { c1 with stat.query_mode := .noQuery }
      else c1
    (c2, !keep)
  else
    let us := update_stream c.streams p
    ({ c with streams := us.1 }, us.2 != -1)

/-- One iteration of the buffer-processing loop (slutils.c lines
211-288), run when the window guard held: detect the record, classify
INFO against data, update the stream chain, advance the read cursor,
and decide whether the packet goes to the caller. -/
def procStep (c : SLCD) : StepRes :=
  let p := mkPacket c
  let c1 := storePack c
  if p.reclen < 0 then .fatal c1
  else if p.reclen = 0 ∨ c.stat.recptr - c.stat.sendptr < p.reclen.toNat + 8 then
    .needMore c1
  else
    let d := packetDisposition c1 p
    let c3 := { d.1 with stat.sendptr := d.1.stat.sendptr + 8 + p.reclen.toNat }
    if d.2 then .deliver c3 p else .consumed c3

/-- Outcome of the whole buffer-processing loop. -/
inductive LoopRes
  | ret (c : SLCD) (r : CollectRet)
  | fall (c : SLCD)
deriving Repr, DecidableEq

/-- The buffer-processing loop (slutils.c lines 209-289). Fuel bounds
the iterations; each consumed packet advances `sendptr` by at least 9
bytes and the loop needs a 56-byte window, so fuel `recptr + 1` can
never be exhausted. -/
def procLoop : Nat → SLCD → LoopRes
  | 0, c => .fall c
  | fuel + 1, c =>
    if c.stat.recptr - c.stat.sendptr < 56 then .fall c
    else
      match procStep c with
      | .fatal c2 => .ret c2 .terminate
      | .needMore c2 => .fall c2
      | .deliver c2 p => .ret c2 (.packet p)
      | .consumed c2 => procLoop fuel c2

/-- Buffer compaction (slutils.c lines 299-307): `memmove` the unread
window to the front; array bytes beyond the moved window keep their old
values. -/
def compactBuf (c : SLCD) : SLCD :=
  if c.stat.sendptr ≠ 0 then
    let n := c.stat.recptr - c.stat.sendptr
    let moved := (c.stat.databuf.drop c.stat.sendptr).take n ++ c.stat.databuf.drop n
    { c with stat.databuf := moved, stat.recptr := n, stat.sendptr := 0 }
  else c

/-- The 7 bytes of the bare `ERROR` response line. -/
def errorBytes : List Nat := [69, 82, 82, 79, 82, 13, 10]

/-- The 3 bytes of the bare `END` line. -/
def endBytes : List Nat := [69, 78, 68]

/-- The trap door, the compaction and the stopped-stream literal checks
shared by both collect variants (slutils.c lines 291-324). -/
def afterLoop (c : SLCD) : SLCD ⊕ (SLCD × CollectRet) :=
  if c.terminate then .inr (c, .terminate)
  else
    let c := compactBuf c
    if c.stat.recptr - c.stat.sendptr = 7 ∧
        (c.stat.databuf.drop c.stat.sendptr).take 7 = errorBytes then
      .inr ({ c with link := -1 }, .terminate)
    else if c.stat.recptr - c.stat.sendptr = 3 ∧
        (c.stat.databuf.drop c.stat.sendptr).take 3 = endBytes then
      .inr ({ c with link := -1 }, .terminate)
    else .inl c

/-- `sl_recvdata` writing its bytes at the write cursor (network.c is not
in src/; modelled from the spec: at most `BUFSIZE - recptr` bytes are
received, written at `databuf[recptr]`). Returns the byte count; the
cursor itself is bumped by the caller. -/
def writeRecv (c : SLCD) (bs : List Nat) : SLCD × Nat :=
  let bw := bs.take (8192 - c.stat.recptr)
  ({ c with stat.databuf :=
      c.stat.databuf.take c.stat.recptr ++ bw ++
        c.stat.databuf.drop (c.stat.recptr + bw.length) }, bw.length)

/-- Cursor and timer bookkeeping after a successful read (slutils.c
lines 367-374): received bytes bump `recptr` and reset the idle and
keepalive timers. -/
def applyRead (c : SLCD) (n : Nat) : SLCD :=
  if n ≠ 0 then
    { c with stat.recptr := c.stat.recptr + n,
             stat.netto_trig := -1, stat.keepalive_trig := -1 }
  else c

/-- The socket poll and read of the blocking collect (slutils.c lines
326-375). -/
def readBlocking (c : SLCD) (e : TickEnv) : SLCD × Bool :=
  if c.stat.sl_state = .data then
    if 0 < e.selectRet then
      if ¬e.selectFdSet then (c, false)
      else
        match e.recvResult with
        | none => ({ c with link := -1, stat.netdly_trig := -1 }, true)
        | some bs =>
          let cw := writeRecv c bs
          (applyRead cw.1 cw.2, true)
    else if e.selectRet < 0 ∧ ¬c.terminate then
      ({ c with link := -1, stat.netdly_trig := -1 }, false)
    else (c, false)
  else (c, false)

/-- The unconditional read of the non-blocking collect (slutils.c lines
736-757); the read-failure disconnect is skipped when terminating. -/
def readNB (c : SLCD) (e : TickEnv) : SLCD × Bool :=
  if c.stat.sl_state = .data then
    match e.recvResult with
    | none =>
      (if ¬c.terminate then { c with link := -1, stat.netdly_trig := -1 }
       else c, true)
    | some bs =>
      let cw := writeRecv c bs
      (applyRead cw.1 cw.2, true)
  else (c, false)

/-- The network-timeout timing logic (slutils.c lines 381-393). -/
def timingNetto (c : SLCD) (now : Int) : SLCD :=
  if c.netto ≠ 0 then
    if c.stat.netto_trig = -1 then
      { c with stat.netto_time := now, stat.netto_trig := 0 }
    else if c.stat.netto_trig = 0 ∧ (c.netto : Int) < now - c.stat.netto_time then
      { c with stat.netto_trig := 1 }
    else c
  else c

/-- The keepalive timing logic (slutils.c lines 396-408). -/
def timingKeepalive (c : SLCD) (now : Int) : SLCD :=
  if c.keepalive ≠ 0 then
    if c.stat.keepalive_trig = -1 then
      { c with stat.keepalive_time := now, stat.keepalive_trig := 0 }
    else if c.stat.keepalive_trig = 0 ∧
        (c.keepalive : Int) < now - c.stat.keepalive_time then
      { c with stat.keepalive_trig := 1 }
    else c
  else c

/-- The reconnect-delay timing logic (slutils.c lines 411-423). -/
def timingNetdly (c : SLCD) (now : Int) : SLCD :=
  if c.netdly ≠ 0 then
    if c.stat.netdly_trig = -1 then
      { c with stat.netdly_time := now, stat.netdly_trig := 1 }
    else if c.stat.netdly_trig = 1 ∧ (c.netdly : Int) < now - c.stat.netdly_time then
      { c with stat.netdly_trig := 0 }
    else c
  else c

/-- The timer update section (slutils.c lines 377-423, identical to
lines 759-805). -/
def timingUpdate (c : SLCD) (now : Int) : SLCD :=
  timingNetdly (timingKeepalive (timingNetto c now) now) now

/-- The head of a blocking pass: the pre-processing section or, when
terminating, the disconnect-and-down branch. -/
def preB (c : SLCD) (e : TickEnv) : SLCD × Bool :=
  if ¬c.terminate then preData c e else (termBranchB c, false)

/-- The head of a non-blocking pass: the pre-processing section or, when
terminating, the disconnect branch that assigns `SL_DATA`. -/
def preNB (c : SLCD) (e : TickEnv) : SLCD × Bool :=
  if ¬c.terminate then preData c e else (termBranchNB c, false)

/-- One pass of the blocking primary loop (slutils.c lines 88-424): the
new descriptor, the result if the pass returns to the caller, and
whether the network was contacted (connect, send, or receive). -/
def tickCollect (c : SLCD) (e : TickEnv) : SLCD × Option CollectRet × Bool :=
  match procLoop ((preB c e).1.stat.recptr + 1) (preB c e).1 with
  | .ret c2 r => (c2, some r, (preB c e).2)
  | .fall c2 =>
    match afterLoop c2 with
    | .inr cr => (cr.1, some cr.2, (preB c e).2)
    | .inl c3 =>
      (timingUpdate (readBlocking c3 e).1 e.now, none,
        (preB c e).2 || (readBlocking c3 e).2)

/-- The entry checks shared by both collect variants (slutils.c lines
66-85 and 474-493): a pending INFO level forces the query mode and a
closed link triggers the configuration check and timer resets; `.inr`
is the immediate `SLTERMINATE` return. -/
def collectEntry (c : SLCD) : SLCD ⊕ SLCD :=
  let c := if c.info.isSome then { c with stat.query_mode := .infoQuery } else c
  if c.link = -1 then
    if sl_checkslcd c then .inr c
    else .inl { c with stat.netto_trig := -1, stat.keepalive_trig := -1 }
  else .inl c

/-- The blocking primary loop driven by a list of per-pass environments;
result `none` means the call is still blocked when the environments run
out. -/
def collectLoop : SLCD → List TickEnv → SLCD × Option CollectRet × Bool
  | c, [] => (c, none, false)
  | c, e :: rest =>
    match tickCollect c e with
    | (c2, some r, b) => (c2, some r, b)
    | (c2, none, b) =>
      let t := collectLoop c2 rest
      (t.1, t.2.1, b || t.2.2)

/-- `sl_collect` of slutils.c, driven by one environment per pass of the
primary loop. -/
def sl_collect (c : SLCD) (envs : List TickEnv) : SLCD × Option CollectRet × Bool :=
  match collectEntry c with
  | .inr c2 => (c2, some .terminate, false)
  | .inl c2 => collectLoop c2 envs

/-- The body of a non-blocking pass after the entry checks (slutils.c
lines 495-809). -/
def nbTail (c : SLCD) (e : TickEnv) : SLCD × CollectRet × Bool :=
  match procLoop ((preNB c e).1.stat.recptr + 1) (preNB c e).1 with
  | .ret c3 r => (c3, r, (preNB c e).2)
  | .fall c3 =>
    match afterLoop c3 with
    | .inr cr => (cr.1, cr.2, (preNB c e).2)
    | .inl c4 =>
      (timingUpdate (readNB c4 e).1 e.now, .noPacket,
        (preNB c e).2 || (readNB c4 e).2)

/-- `sl_collect_nb_size` of slutils.c: the single-pass, non-blocking
variant; the `maxrecsize` parameter is accepted and, as in the source,
never consulted. -/
def sl_collect_nb_size (c : SLCD) (e : TickEnv) (maxrecsize : Int) :
    SLCD × CollectRet × Bool :=
  match collectEntry c with
  | .inr c2 => (c2, .terminate, false)
  | .inl c2 => nbTail c2 e

/-- `sl_collect_nb` of slutils.c: the wrapper passing `SLRECSIZEMAX`. -/
def sl_collect_nb (c : SLCD) (e : TickEnv) : SLCD × CollectRet × Bool :=
  sl_collect_nb_size c e 4096

/-- The cursor part of the spec's buffer invariant:
`0 ≤ sendptr ≤ recptr ≤ 8192`. -/
def BufInv (c : SLCD) : Prop :=
  c.stat.sendptr ≤ c.stat.recptr ∧ c.stat.recptr ≤ 8192

/-- The direction of the spec's link invariant that the code maintains:
a down session has a closed socket. -/
def LinkInv (c : SLCD) : Prop :=
  c.stat.sl_state = .down → c.link = -1

/-- A window from which the buffer-processing loop immediately stops
without delivering: too small, non-miniSEED, or an incomplete record. -/
def stuckWindow (st : SLstat) : Prop :=
  st.recptr - st.sendptr < 56 ∨
  (detect (st.databuf.drop (st.sendptr + 8)) (st.recptr - st.sendptr)).1 < 0 ∨
  (detect (st.databuf.drop (st.sendptr + 8)) (st.recptr - st.sendptr)).1 = 0 ∨
  st.recptr - st.sendptr <
    (detect (st.databuf.drop (st.sendptr + 8)) (st.recptr - st.sendptr)).1.toNat + 8

/-- A descriptor on which every further collect call immediately returns
`SLTERMINATE` without touching the network: the terminate flag is set
and either the entry configuration check rejects it or the buffer window
is exhausted. -/
def StuckT (c : SLCD) : Prop :=
  c.terminate = true ∧
    ((c.link = -1 ∧ sl_checkslcd c = true) ∨ stuckWindow c.stat)

/-- Iterated non-blocking collect calls (state after a sequence of
calls, each with its own environment and record-size argument). -/
def nbIter : SLCD → List (TickEnv × Int) → SLCD
  | c, [] => c
  | c, em :: rest => nbIter (sl_collect_nb_size c em.1 em.2).1 rest

/-- The property the spec asserts of every delivered data packet: an
`SL`-signed header whose sequence parses into the 24-bit range, and a
record length that is the framer's positive answer on the packet bytes. -/
def deliveredOk (p : SLpacket) : Prop :=
  p.slhead.take 6 ≠ infoSignature →
    p.slhead.take 2 = sigSL ∧ 0 ≤ sl_sequence p ∧ sl_sequence p ≤ 16777215 ∧
      0 < p.reclen ∧ ∃ n, (detect p.msrecord n).1 = p.reclen

/-- A 48-byte miniSEED 2 fixed header with network `XY`, station `ABC`,
start time 2024-001 10:20:30, and no blockettes (`begin_blockette` 0). -/
def rec48 : List Nat :=
  [48, 48, 48, 48, 48, 49, 68, 32,
   65, 66, 67, 32, 32, 48, 48, 66, 72, 90, 88, 89,
   232, 7, 1, 0, 10, 20, 30, 0, 0, 0,
   0, 0, 0, 0, 0, 0, 0, 0, 0, 0, 0, 0, 0, 0, 0, 0, 0, 0]

/-- A 64-byte miniSEED 2 record: the fixed header of `rec48` pointed at
a blockette 1000 at offset 48 whose record-length field is 6 (2^6 = 64). -/
def rec64 : List Nat :=
  (rec48.set 46 48).set 47 0 ++
    [232, 3, 0, 0, 10, 0, 6, 0, 0, 0, 0, 0, 0, 0, 0, 0]

/-- The SeedLink header `SL000001`. -/
def dataHead : List Nat := [83, 76, 48, 48, 48, 48, 48, 49]

/-- A terminated INFO header (`SLINFO`, reserved byte, non-`*`). -/
def infoHeadTerm : List Nat := infoSignature ++ [32, 88]

/-- A continued INFO header (`SLINFO`, reserved byte, `*`). -/
def infoHeadCont : List Nat := infoSignature ++ [32, 42]

/-- The data packet view of `dataHead ++ rec64`. -/
def pkt1 : SLpacket := { slhead := dataHead, msrecord := rec64, reclen := 64 }

/-- The INFO packet view of `infoHeadTerm ++ rec64`. -/
def pktInfoTerm : SLpacket := { slhead := infoHeadTerm, msrecord := rec64, reclen := 64 }

/-- A freshly initialized session state (as `sl_newslcd` fills it in). -/
def baseStat : SLstat :=
  { databuf := [], recptr := 0, sendptr := 0,
    slpack := { slhead := [], msrecord := [], reclen := 0 },
    expect_info := false, netto_trig := -1, netdly_trig := 0, keepalive_trig := -1,
    netto_time := 0, netdly_time := 0, keepalive_time := 0,
    sl_state := .down, query_mode := .noQuery }

/-- A small concrete descriptor (timers disabled so the timing section is
inert in the concrete runs). -/
def baseCD : SLCD :=
  { streams := [], sladdr := some "localhost:18000", begin_time := none,
    end_time := none, resume := true, multistation := false, dialup := false,
    batchmode := 0, lastpkttime := true, terminate := false, keepalive := 0,
    iotimeout := 60, netto := 0, netdly := 0, info := none, link := -1,
    stat := baseStat }

/-- An environment in which every network operation stays quiet. -/
def quietEnv : TickEnv :=
  { connectFd := none, configOk := false, keepaliveSendOk := false,
    infoSendOk := false, selectRet := 0, selectFdSet := false,
    recvResult := some [], now := 0 }

/-- An environment in which connecting and negotiating succeed. -/
def reconnEnv : TickEnv :=
  { quietEnv with connectFd := some 6, configOk := true }

/-- An environment in which the keepalive send succeeds. -/
def kaEnv : TickEnv :=
  { quietEnv with keepaliveSendOk := true }

/-- A data-state session holding one complete data packet whose record
matches no entry of the stream table (table `GE`/`WLF`, record `XY`/`ABC`). -/
def c1State : SLCD :=
  { baseCD with
    streams := [{ net := "GE", sta := "WLF", selectors := none, seqnum := -1,
                  timestamp := "" }],
    link := 5,
    stat := { baseStat with
              databuf := dataHead ++ rec64, recptr := 72, sl_state := .data } }

/-- A data-state session holding one complete data packet whose record
matches the single stream entry (`XY`/`ABC`). -/
def c8State : SLCD :=
  { baseCD with
    streams := [{ net := "XY", sta := "ABC", selectors := none, seqnum := -1,
                  timestamp := "" }],
    link := 5,
    stat := { baseStat with
              databuf := dataHead ++ rec64, recptr := 72, sl_state := .data } }

/-- A data-state session holding one complete INFO packet while no INFO
response is expected. -/
def c5State : SLCD :=
  { baseCD with
    link := 5,
    stat := { baseStat with
              databuf := infoHeadTerm ++ rec64, recptr := 72, sl_state := .data } }

/-- A data-state session expecting a keepalive INFO answer whose buffer
holds a two-record INFO response (continued record, then terminated
record). -/
def c6State : SLCD :=
  { baseCD with
    link := 5,
    stat := { baseStat with
              databuf := infoHeadCont ++ rec64 ++ infoHeadTerm ++ rec64,
              recptr := 144, sl_state := .data, expect_info := true,
              query_mode := .keepAliveQuery } }

/-- A data-state session expecting a keepalive INFO answer whose buffer
holds exactly one terminated INFO record. -/
def c6SingleState : SLCD :=
  { baseCD with
    link := 5,
    stat := { baseStat with
              databuf := infoHeadTerm ++ rec64, recptr := 72, sl_state := .data,
              expect_info := true, query_mode := .keepAliveQuery } }

/-- A data-state session expecting a plain INFO answer whose buffer
holds exactly one terminated INFO record. -/
def c6InfoState : SLCD :=
  { baseCD with
    link := 5,
    stat := { baseStat with
              databuf := infoHeadTerm ++ rec64, recptr := 72, sl_state := .data,
              expect_info := true, query_mode := .infoQuery } }

/-- A data-state session with the keepalive interval set and its trigger
fired. -/
def c6bState : SLCD :=
  { baseCD with
    link := 5, keepalive := 30,
    stat := { baseStat with sl_state := .data, keepalive_trig := 1 } }

/-- A data-state session whose unread window is exactly the server line
`ERROR\r\n`. -/
def cErrState : SLCD :=
  { baseCD with
    link := 5,
    stat := { baseStat with
              databuf := errorBytes, recptr := 7, sl_state := .data } }

/-- A descriptor with the caller's terminate flag raised. -/
def cTermState : SLCD := { baseCD with terminate := true }

/-- Default stream entry for indexed access. -/
def dfltStream : SLstream :=
  { net := "", sta := "", selectors := none, seqnum := 0, timestamp := "" }

/-- C2: the framer applied to a valid miniSEED 2 fixed header whose
blockette chain holds no whole blockette 1000 and whose buffer holds no
following v2 header returns -1 ("not a miniSEED record / error"), not
the 0 ("record detected, length undetermined") that the spec and the
function's own doc comment (`@retval 0`) promise — even though it sets
the format-version out-parameter to 2, i.e. it did recognize the
format. -/
theorem c2_detect_undetermined_returns_neg1 : detect rec48 48 = (-1, 2) := by
  decide

/-- C10: the `maxrecsize` argument of `sl_collect_nb_size` has no effect
on behavior: any two values give identical results and state, and the
`sl_collect_nb` wrapper (which passes `SLRECSIZEMAX = 4096`) coincides
with every instance. -/
theorem c10_maxrecsize_unused (c : SLCD) (e : TickEnv) (m1 m2 : Int) :
    sl_collect_nb_size c e m1 = sl_collect_nb_size c e m2 ∧
    sl_collect_nb c e = sl_collect_nb_size c e 4096 :=
  ⟨rfl, rfl⟩

/-- C1 counterexample: a session whose buffer holds exactly one complete
data packet matching no stream entry (`update_stream` returns -1): the
collect call returns `SLNOPACKET`, not `SLPACKET` — the no-match packet
is suppressed, refuting the claim that it is still delivered. -/
theorem c1_counterexample_no_match_suppressed :
    (update_stream c1State.streams (mkPacket c1State)).2 = -1 ∧
    (sl_collect_nb_size c1State quietEnv 4096).2.1 = .noPacket := by
  decide

/-- C3 counterexample: after the server's bare `ERROR` line the
non-blocking collect returns `SLTERMINATE` with the socket closed
(`link = -1`) while `sl_state` is still `Data` — the claimed equivalence
between a closed link and the `Down` state fails at this return. -/
theorem c3_counterexample_error_line :
    (sl_collect_nb_size cErrState quietEnv 4096).2.1 = .terminate ∧
    (sl_collect_nb_size cErrState quietEnv 4096).1.link = -1 ∧
    (sl_collect_nb_size cErrState quietEnv 4096).1.stat.sl_state = .data ∧
    ¬((sl_collect_nb_size cErrState quietEnv 4096).1.link = -1 ↔
        (sl_collect_nb_size cErrState quietEnv 4096).1.stat.sl_state = .down) := by
  decide

/-- C4 counterexample: a collect call that returned `SLTERMINATE`
because of the server's `ERROR` line is not sticky: the very next call
on the same descriptor reconnects (network contact, `contacted = true`)
and returns `SLNOPACKET` rather than `SLTERMINATE`. -/
theorem c4_counterexample_error_not_sticky :
    (sl_collect_nb_size cErrState quietEnv 4096).2.1 = .terminate ∧
    (sl_collect_nb_size (sl_collect_nb_size cErrState quietEnv 4096).1
        reconnEnv 4096).2.1 = .noPacket ∧
    (sl_collect_nb_size (sl_collect_nb_size cErrState quietEnv 4096).1
        reconnEnv 4096).2.2 = true := by
  decide

/-- C5: an INFO packet extracted while `expect_info` is false is logged
as "skipping" but `retpacket` is never cleared on that path, so the
packet IS returned to the caller — the code contradicts its own log
message and the spec's "log and discard". -/
theorem c5_unexpected_info_delivered :
    c5State.stat.expect_info = false ∧
    (sl_collect_nb_size c5State quietEnv 4096).2.1 = .packet pktInfoTerm ∧
    pktInfoTerm.slhead.take 6 = infoSignature := by
  decide

/-- C6 counterexample: a two-record KeepAlive-tagged INFO response is
not consumed in full: `query_mode` is cleared after the first record, so
the second (terminating) record is delivered to the caller. -/
theorem c6_counterexample_second_record_delivered :
    c6State.stat.query_mode = .keepAliveQuery ∧
    c6State.stat.expect_info = true ∧
    (sl_collect_nb_size c6State quietEnv 4096).2.1 = .packet pktInfoTerm ∧
    pktInfoTerm.slhead.take 6 = infoSignature := by
  decide

/-- C9: posting a data record with a readable sequence number to a
non-empty stream table with a match updates every matching entry: the
uni-station head entry is updated unconditionally; otherwise each entry
whose network and station patterns glob-match the record's cleaned codes
receives the packet's sequence number and the record's start time in the
canonical `YYYY,MM,DD,hh,mm,ss` rendering (day-of-year converted). -/
theorem c9_update_stream_updates_matches (streams : List SLstream) (p : SLpacket)
    (hseq : sl_sequence p ≠ -1)
    (hmatch : (∃ first rest, streams = first :: rest ∧ uniHead first = true) ∨
      streams.any (streamMatch p.msrecord) = true) :
    (update_stream streams p).2 = 0 ∧
    (update_stream streams p).1.length = streams.length ∧
    (∀ first rest, streams = first :: rest → uniHead first = true →
      (update_stream streams p).1 =
        { first with seqnum := sl_sequence p,
                     timestamp := recTimestamp p.msrecord } :: rest) ∧
    (∀ first rest, streams = first :: rest → uniHead first = false →
      ∀ i, i < streams.length →
        streamMatch p.msrecord (streams.getD i dfltStream) = true →
        ((update_stream streams p).1.getD i dfltStream).seqnum = sl_sequence p ∧
        ((update_stream streams p).1.getD i dfltStream).timestamp =
          recTimestamp p.msrecord) := by
  match streams, hmatch with
  | [], Or.inl ⟨f, r, h, _⟩ => exact absurd h (by simp)
  | [], Or.inr h => exact absurd h (by simp)
  | first :: rest, hmatch =>
    by_cases hu : uniHead first = true
    · have hred : update_stream (first :: rest) p =
          ({ first with seqnum := sl_sequence p,
                        timestamp := recTimestamp p.msrecord } :: rest, 0) := by
        unfold update_stream
        rw [if_neg hseq]
        simp only [hu, if_true]
      rw [hred]
      refine ⟨rfl, by simp, ?_, ?_⟩
      · intro f r heq _
        injection heq with h1 h2
        subst h1; subst h2; rfl
      · intro f r heq hufalse
        injection heq with h1 _
        subst h1
        rw [hu] at hufalse
        cases hufalse
    · have hany : (first :: rest).any (streamMatch p.msrecord) = true := by
        rcases hmatch with ⟨f, r, heq, hut⟩ | h
        · injection heq with h1 _
          subst h1
          exact absurd hut hu
        · exact h
      have hred : update_stream (first :: rest) p =
          ((first :: rest).map fun e =>
            if streamMatch p.msrecord e then
              { e with seqnum := sl_sequence p,
                       timestamp := recTimestamp p.msrecord }
            else e, 0) := by
        unfold update_stream
        rw [if_neg hseq]
        simp only [hu, hany, if_true, if_false, Bool.false_eq_true, ↓reduceIte]
      rw [hred]
      refine ⟨rfl, by simp, ?_, ?_⟩
      · intro f r heq hut
        injection heq with h1 _
        subst h1
        exact absurd hut hu
      · intro f r heq _ i hi hm
        have hgd : ∀ (l : List SLstream) (g : SLstream → SLstream) j,
            j < l.length → (l.map g).getD j dfltStream = g (l.getD j dfltStream) := by
          intro l g j hj
          rw [List.getD_eq_getElem l dfltStream hj,
            List.getD_eq_getElem (l.map g) dfltStream (by simpa using hj)]
          simp
        rw [hgd _ _ i hi, hm]
        exact ⟨rfl, rfl⟩

/-- Reduction of `procStep` on a complete packet (positive detected
length that fits the window). -/
theorem procStep_complete (c : SLCD)
    (hpos : 0 < (mkPacket c).reclen)
    (hfit : (mkPacket c).reclen.toNat + 8 ≤ c.stat.recptr - c.stat.sendptr) :
    procStep c =
      (if (packetDisposition (storePack c) (mkPacket c)).2 then
        StepRes.deliver
          { (packetDisposition (storePack c) (mkPacket c)).1 with
            stat.sendptr :=
              (packetDisposition (storePack c) (mkPacket c)).1.stat.sendptr +
                8 + (mkPacket c).reclen.toNat }
          (mkPacket c)
      else
        StepRes.consumed
          { (packetDisposition (storePack c) (mkPacket c)).1 with
            stat.sendptr :=
              (packetDisposition (storePack c) (mkPacket c)).1.stat.sendptr +
                8 + (mkPacket c).reclen.toNat }) := by
  unfold procStep
  rw [if_neg (by omega), if_neg (by push_neg; exact ⟨by omega, by omega⟩)]

/-- Reduction of `packetDisposition` on a data (non-INFO) packet. -/
theorem packetDisposition_data (c : SLCD) (p : SLpacket)
    (hni : p.slhead.take 6 ≠ infoSignature) :
    packetDisposition c p =
      ({ c with streams := (update_stream c.streams p).1 },
        (update_stream c.streams p).2 != -1) := by
  unfold packetDisposition
  rw [if_neg hni]

/-- Frame of `packetDisposition`: it never touches the link, the
terminate flag, the connection state, the cursors, the buffer, or the
server address. -/
theorem packetDisposition_frame (c : SLCD) (p : SLpacket) :
    (packetDisposition c p).1.link = c.link ∧
    (packetDisposition c p).1.terminate = c.terminate ∧
    (packetDisposition c p).1.stat.sl_state = c.stat.sl_state ∧
    (packetDisposition c p).1.stat.recptr = c.stat.recptr ∧
    (packetDisposition c p).1.stat.sendptr = c.stat.sendptr ∧
    (packetDisposition c p).1.stat.databuf = c.stat.databuf ∧
    (packetDisposition c p).1.sladdr = c.sladdr := by
  unfold packetDisposition
  split
  · dsimp only
    split <;> split <;> simp
  · simp

/-- Inversion of `procStep` in the fatal case: the state only stores the
packet view, and the framer answered a negative length. -/
theorem procStep_fatal_inv (c c2 : SLCD) (h : procStep c = .fatal c2) :
    c2 = storePack c ∧ (mkPacket c).reclen < 0 := by
  unfold procStep at h
  simp only [] at h
  split at h
  · exact ⟨(StepRes.fatal.inj h).symm, by assumption⟩
  · split at h
    · cases h
    · split at h <;> cases h

/-- Inversion of `procStep` in the need-more case. -/
theorem procStep_needMore_inv (c c2 : SLCD) (h : procStep c = .needMore c2) :
    c2 = storePack c ∧
      ((mkPacket c).reclen = 0 ∨
        c.stat.recptr - c.stat.sendptr < (mkPacket c).reclen.toNat + 8) := by
  unfold procStep at h
  simp only [] at h
  split at h
  · cases h
  · split at h
    · exact ⟨(StepRes.needMore.inj h).symm, by assumption⟩
    · split at h <;> cases h

/-- Inversion of `procStep` in the consumed case: the packet was
complete, the cursor advanced past it, and everything but the stream
chain, the stored view, the INFO flags and the cursor is untouched. -/
theorem procStep_consumed_inv (c c2 : SLCD) (h : procStep c = .consumed c2) :
    0 < (mkPacket c).reclen ∧
    (mkPacket c).reclen.toNat + 8 ≤ c.stat.recptr - c.stat.sendptr ∧
    c2.stat.sendptr = c.stat.sendptr + 8 + (mkPacket c).reclen.toNat ∧
    c2.link = c.link ∧ c2.terminate = c.terminate ∧
    c2.stat.sl_state = c.stat.sl_state ∧ c2.stat.recptr = c.stat.recptr ∧
    c2.stat.databuf = c.stat.databuf ∧ c2.sladdr = c.sladdr := by
  unfold procStep at h
  simp only [] at h
  split at h
  · cases h
  · split at h
    · cases h
    · rename_i hneg hguard
      split at h
      · cases h
      · have hc2 := (StepRes.consumed.inj h).symm
        have hf := packetDisposition_frame (storePack c) (mkPacket c)
        subst hc2
        have hsp : (storePack c).stat.sendptr = c.stat.sendptr := rfl
        have hrp : (storePack c).stat.recptr = c.stat.recptr := rfl
        push_neg at hguard
        refine ⟨by omega, by omega, ?_, ?_, ?_, ?_, ?_, ?_, ?_⟩ <;>
          simp_all [storePack]

/-- Inversion of `procStep` in the deliver case: the delivered packet is
the view built over the window, it was complete, and a non-INFO delivery
means the stream update did not report failure. -/
theorem procStep_deliver_inv (c c2 : SLCD) (p : SLpacket)
    (h : procStep c = .deliver c2 p) :
    p = mkPacket c ∧ 0 < p.reclen ∧
    p.reclen.toNat + 8 ≤ c.stat.recptr - c.stat.sendptr ∧
    (p.slhead.take 6 ≠ infoSignature → (update_stream c.streams p).2 ≠ -1) ∧
    c2.stat.sendptr = c.stat.sendptr + 8 + p.reclen.toNat ∧
    c2.link = c.link ∧ c2.terminate = c.terminate ∧
    c2.stat.sl_state = c.stat.sl_state ∧ c2.stat.recptr = c.stat.recptr ∧
    c2.stat.databuf = c.stat.databuf ∧ c2.sladdr = c.sladdr := by
  unfold procStep at h
  simp only [] at h
  split at h
  · cases h
  · split at h
    · cases h
    · rename_i hneg hguard
      split at h
      · rename_i hret
        obtain ⟨hc2, hp⟩ := StepRes.deliver.inj h
        subst hp
        have hf := packetDisposition_frame (storePack c) (mkPacket c)
        have hus : (packetDisposition (storePack c) (mkPacket c)).2 = true := hret
        push_neg at hguard
        refine ⟨rfl, by omega, by omega, ?_, ?_, ?_, ?_, ?_, ?_, ?_, ?_⟩
        · intro hni
          rw [packetDisposition_data (storePack c) (mkPacket c) hni] at hus
          have : (update_stream (storePack c).streams (mkPacket c)).2 ≠ -1 := by
            simpa using hus
          simpa [storePack] using this
        all_goals (subst hc2; simp_all [storePack])
      · cases h

/-- C1 amended: a complete non-INFO packet whose record matches no
stream entry (`update_stream` returns -1, the "no match" answer) is NOT
delivered: the collect loop clears `retpacket` exactly as for a broken
packet, advances the read cursor past the packet and continues; the
condition produces only the log line, and also suppresses delivery. -/
theorem c1_amended_no_match_not_delivered (c : SLCD)
    (hpos : 0 < (mkPacket c).reclen)
    (hfit : (mkPacket c).reclen.toNat + 8 ≤ c.stat.recptr - c.stat.sendptr)
    (hni : (mkPacket c).slhead.take 6 ≠ infoSignature)
    (hnm : (update_stream c.streams (mkPacket c)).2 = -1) :
    ∃ c2, procStep c = .consumed c2 ∧
      c2.stat.sendptr = c.stat.sendptr + 8 + (mkPacket c).reclen.toNat ∧
      c2.streams = (update_stream c.streams (mkPacket c)).1 := by
  have hs : (storePack c).streams = c.streams := rfl
  rw [procStep_complete c hpos hfit, packetDisposition_data _ _ hni, hs, hnm]
  dsimp only
  rw [if_neg (by decide)]
  exact ⟨_, rfl, rfl, rfl⟩

/-- C1 witness: the concrete no-match packet of `c1State` is consumed,
not delivered. -/
theorem c1_witness :
    ∃ c2, procStep c1State = .consumed c2 ∧
      c2.stat.sendptr = c1State.stat.sendptr + 8 + (mkPacket c1State).reclen.toNat ∧
      c2.streams = (update_stream c1State.streams (mkPacket c1State)).1 :=
  c1_amended_no_match_not_delivered c1State (by decide) (by decide) (by decide)
    (by decide)

/-- C6 amended: in `Data` with the keepalive interval configured and its
trigger fired, no INFO outstanding and no pending idle timeout, the tick
sends the INFO `ID` request (network contact) and, on send success, tags
the query `KeepAlive`, raises `expect_info` and resets the trigger. An
INFO record processed while the KeepAlive tag is in force is consumed
silently, never delivered — a terminated record also clears
`expect_info`; because the tag is cleared after each INFO record, this
covers exactly the first record of the response (single-record responses
in full), and an INFO record processed under the plain Info tag is
delivered. -/
theorem c6_amended_keepalive_roundtrip :
    (∀ c e, c.link ≠ -1 → c.stat.sl_state = .data →
      c.stat.expect_info = false → c.keepalive ≠ 0 → 0 < c.stat.keepalive_trig →
      ¬(c.netto ≠ 0 ∧ 0 < c.stat.netto_trig) → e.keepaliveSendOk = true →
      (preData c e).1.stat.query_mode = .keepAliveQuery ∧
      (preData c e).1.stat.expect_info = true ∧
      (preData c e).1.stat.keepalive_trig = -1 ∧
      (preData c e).2 = true) ∧
    (∀ c, 0 < (mkPacket c).reclen →
      (mkPacket c).reclen.toNat + 8 ≤ c.stat.recptr - c.stat.sendptr →
      (mkPacket c).slhead.take 6 = infoSignature →
      c.stat.expect_info = true → c.stat.query_mode = .keepAliveQuery →
      ∃ c2, procStep c = .consumed c2 ∧
        (byteAt (mkPacket c).slhead 7 ≠ 42 → c2.stat.expect_info = false)) ∧
    (∀ c, 0 < (mkPacket c).reclen →
      (mkPacket c).reclen.toNat + 8 ≤ c.stat.recptr - c.stat.sendptr →
      (mkPacket c).slhead.take 6 = infoSignature →
      c.stat.expect_info = true → c.stat.query_mode = .infoQuery →
      ∃ c2, procStep c = .deliver c2 (mkPacket c)) := by
  refine ⟨?_, ?_, ?_⟩
  · intro c e hlink hst hexp hka htrig hnetto hsend
    have h1 : stepDownCheck c = c := by
      unfold stepDownCheck
      rw [if_neg hlink]
    have h2 : stepNetto c = c := by
      unfold stepNetto
      rw [if_neg (by
        intro hcon
        exact hnetto ⟨hcon.2.1, hcon.2.2⟩)]
    have h3 : stepKeepalive c e.keepaliveSendOk =
        ({ c with stat.query_mode := .keepAliveQuery, stat.expect_info := true,
                  stat.keepalive_trig := -1 }, true) := by
      unfold stepKeepalive
      rw [if_pos ⟨hst, by rw [hexp]; exact Bool.false_ne_true, hka, htrig⟩, hsend]
      rw [if_pos rfl]
    have h4 : ∀ cc : SLCD, cc.stat.sl_state = .data → cc.stat.expect_info = true →
        stepInfoSend cc e.infoSendOk = (cc, false) := by
      intro cc _ hexp2
      unfold stepInfoSend
      rw [if_neg (by
        intro hcon
        exact hcon.2.1 hexp2)]
    have h5 : ∀ cc : SLCD, cc.stat.sl_state = .data →
        stepConnect cc e.connectFd = (cc, false) := by
      intro cc hst2
      unfold stepConnect
      rw [if_neg (by
        intro hcon
        rw [hst2] at hcon
        cases hcon.1)]
    have h6 : ∀ cc : SLCD, cc.stat.sl_state = .data →
        stepNegotiate cc e.infoSendOk e.configOk = (cc, false) := by
      intro cc hst2
      unfold stepNegotiate
      rw [if_neg (by
        rw [hst2]
        intro hcon
        cases hcon)]
    unfold preData
    simp only [] at h1 h2 h3 ⊢
    rw [h1, h2, h3]
    dsimp only
    rw [h4 _ (by simpa using hst) rfl]
    dsimp only
    rw [h5 _ (by simpa using hst)]
    dsimp only
    rw [h6 _ (by simpa using hst)]
    exact ⟨rfl, rfl, rfl, rfl⟩
  · intro c hpos hfit hinfo hexp hq
    have hpd2 : (packetDisposition (storePack c) (mkPacket c)).2 = false := by
      unfold packetDisposition
      rw [if_pos hinfo]
      dsimp only
      have he : ((storePack c).stat.expect_info &&
          decide ((storePack c).stat.query_mode = .keepAliveQuery)) = true := by
        have h1 : (storePack c).stat.expect_info = true := hexp
        have h2 : (storePack c).stat.query_mode = .keepAliveQuery := hq
        rw [h1, h2]
        decide
      rw [he]
      decide
    have hpde : byteAt (mkPacket c).slhead 7 ≠ 42 →
        (packetDisposition (storePack c) (mkPacket c)).1.stat.expect_info = false := by
      intro hterm
      unfold packetDisposition
      rw [if_pos hinfo]
      dsimp only
      have hA : (storePack c).stat.expect_info = true ∧
          byteAt (mkPacket c).slhead 7 ≠ 42 := ⟨hexp, hterm⟩
      rw [if_pos hA]
      split <;> rfl
    rw [procStep_complete c hpos hfit, hpd2]
    refine ⟨_, by rw [if_neg (by decide)], ?_⟩
    intro hterm
    exact hpde hterm
  · intro c hpos hfit hinfo hexp hq
    have hpd2 : (packetDisposition (storePack c) (mkPacket c)).2 = true := by
      unfold packetDisposition
      rw [if_pos hinfo]
      dsimp only
      have he : ((storePack c).stat.expect_info &&
          decide ((storePack c).stat.query_mode = .keepAliveQuery)) = false := by
        have hqq : (storePack c).stat.query_mode = .infoQuery := hq
        rw [hqq]
        simp
      rw [he]
      decide
    rw [procStep_complete c hpos hfit, hpd2]
    rw [if_pos (by decide)]
    exact ⟨_, rfl⟩

/-- C6 witness: the concrete keepalive send, the concrete consumption of
a single terminated keepalive response record, and the concrete delivery
of a plain INFO record. -/
theorem c6_witness :
    (preData c6bState kaEnv).1.stat.query_mode = .keepAliveQuery ∧
    (∃ c2, procStep c6SingleState = .consumed c2) ∧
    (∃ c2, procStep c6InfoState = .deliver c2 (mkPacket c6InfoState)) := by
  have h := c6_amended_keepalive_roundtrip
  refine ⟨(h.1 c6bState kaEnv (by decide) rfl rfl (by decide) (by decide)
    (by decide) rfl).1, ?_, ?_⟩
  · obtain ⟨c2, hc2, _⟩ := h.2.1 c6SingleState (by decide) (by decide)
      (by decide) rfl rfl
    exact ⟨c2, hc2⟩
  · exact h.2.2 c6InfoState (by decide) (by decide) (by decide) rfl rfl

/-- `stepDownCheck` keeps the cursors. -/
theorem stepDownCheck_cursors (c : SLCD) :
    (stepDownCheck c).stat.recptr = c.stat.recptr ∧
    (stepDownCheck c).stat.sendptr = c.stat.sendptr := by
  unfold stepDownCheck
  split <;> exact ⟨rfl, rfl⟩

/-- `stepNetto` keeps the cursors. -/
theorem stepNetto_cursors (c : SLCD) :
    (stepNetto c).stat.recptr = c.stat.recptr ∧
    (stepNetto c).stat.sendptr = c.stat.sendptr := by
  unfold stepNetto
  split <;> exact ⟨rfl, rfl⟩

/-- `stepKeepalive` keeps the cursors. -/
theorem stepKeepalive_cursors (c : SLCD) (b : Bool) :
    (stepKeepalive c b).1.stat.recptr = c.stat.recptr ∧
    (stepKeepalive c b).1.stat.sendptr = c.stat.sendptr := by
  unfold stepKeepalive
  split
  · split <;> exact ⟨rfl, rfl⟩
  · exact ⟨rfl, rfl⟩

/-- `stepInfoSend` keeps the cursors. -/
theorem stepInfoSend_cursors (c : SLCD) (b : Bool) :
    (stepInfoSend c b).1.stat.recptr = c.stat.recptr ∧
    (stepInfoSend c b).1.stat.sendptr = c.stat.sendptr := by
  unfold stepInfoSend
  split
  · split <;> exact ⟨rfl, rfl⟩
  · exact ⟨rfl, rfl⟩

/-- `stepConnect` keeps the cursors. -/
theorem stepConnect_cursors (c : SLCD) (fd : Option Nat) :
    (stepConnect c fd).1.stat.recptr = c.stat.recptr ∧
    (stepConnect c fd).1.stat.sendptr = c.stat.sendptr := by
  unfold stepConnect
  split
  · cases fd <;> exact ⟨rfl, rfl⟩
  · exact ⟨rfl, rfl⟩

/-- The pre-processing section preserves the cursor invariant: every
branch keeps the cursors except negotiation success, which zeroes
both. -/
theorem bufInv_preData (c : SLCD) (e : TickEnv) (h : BufInv c) :
    BufInv (preData c e).1 := by
  unfold preData
  simp only []
  have h1 := stepDownCheck_cursors c
  have h2 := stepNetto_cursors (stepDownCheck c)
  have h3 := stepKeepalive_cursors (stepNetto (stepDownCheck c)) e.keepaliveSendOk
  have h4 := stepInfoSend_cursors
    (stepKeepalive (stepNetto (stepDownCheck c)) e.keepaliveSendOk).1 e.infoSendOk
  have h5 := stepConnect_cursors
    (stepInfoSend (stepKeepalive (stepNetto (stepDownCheck c))
      e.keepaliveSendOk).1 e.infoSendOk).1 e.connectFd
  have hbefore : BufInv (stepConnect
      (stepInfoSend (stepKeepalive (stepNetto (stepDownCheck c))
        e.keepaliveSendOk).1 e.infoSendOk).1 e.connectFd).1 := by
    unfold BufInv at h ⊢
    rw [h5.1, h5.2, h4.1, h4.2, h3.1, h3.2, h2.1, h2.2, h1.1, h1.2]
    exact h
  generalize hg : (stepConnect (stepInfoSend (stepKeepalive
    (stepNetto (stepDownCheck c)) e.keepaliveSendOk).1 e.infoSendOk).1
      e.connectFd).1 = cc at hbefore ⊢
  unfold stepNegotiate
  split
  · split
    · exact ⟨Nat.le.refl, Nat.zero_le 8192⟩
    · split
      · exact ⟨Nat.le.refl, Nat.zero_le 8192⟩
      · exact hbefore
  · exact hbefore

/-- `stepDownCheck` preserves the link invariant (and establishes the
down state only with a closed link). -/
theorem linkInv_stepDownCheck (c : SLCD) (h : LinkInv c) :
    LinkInv (stepDownCheck c) := by
  unfold stepDownCheck
  split
  · intro _
    assumption
  · exact h

/-- `stepNetto` preserves the link invariant. -/
theorem linkInv_stepNetto (c : SLCD) (h : LinkInv c) : LinkInv (stepNetto c) := by
  unfold stepNetto
  split
  · intro _
    rfl
  · exact h

/-- `stepKeepalive` preserves the link invariant. -/
theorem linkInv_stepKeepalive (c : SLCD) (b : Bool) (h : LinkInv c) :
    LinkInv (stepKeepalive c b).1 := by
  unfold stepKeepalive
  split
  · split
    · intro hs
      exact h hs
    · exact h
  · exact h

/-- `stepInfoSend` preserves the link invariant. -/
theorem linkInv_stepInfoSend (c : SLCD) (b : Bool) (h : LinkInv c) :
    LinkInv (stepInfoSend c b).1 := by
  unfold stepInfoSend
  split
  · split
    · intro hs
      exact h hs
    · intro hs
      exact h hs
  · exact h

/-- `stepConnect` preserves the link invariant. -/
theorem linkInv_stepConnect (c : SLCD) (fd : Option Nat) (h : LinkInv c) :
    LinkInv (stepConnect c fd).1 := by
  unfold stepConnect
  split
  · cases fd
    · intro _
      rfl
    · intro hs
      exact SLState.noConfusion hs
  · exact h

/-- `stepNegotiate` preserves the link invariant. -/
theorem linkInv_stepNegotiate (c : SLCD) (b1 b2 : Bool) (h : LinkInv c) :
    LinkInv (stepNegotiate c b1 b2).1 := by
  unfold stepNegotiate
  split
  · rename_i hup
    split
    · split <;> (intro hs; exact SLState.noConfusion hs)
    · split
      · intro hs
        exact SLState.noConfusion hs
      · intro _
        rfl
  · exact h

/-- The pre-processing section preserves the link invariant. -/
theorem linkInv_preData (c : SLCD) (e : TickEnv) (h : LinkInv c) :
    LinkInv (preData c e).1 := by
  unfold preData
  simp only []
  exact linkInv_stepNegotiate _ _ _ (linkInv_stepConnect _ _
    (linkInv_stepInfoSend _ _ (linkInv_stepKeepalive _ _
      (linkInv_stepNetto _ (linkInv_stepDownCheck c h)))))

/-- One buffer-processing step preserves the cursor invariant in every
outcome. -/
theorem bufInv_procStep (c : SLCD) (h : BufInv c) :
    (∀ c2, procStep c = .fatal c2 → BufInv c2) ∧
    (∀ c2, procStep c = .needMore c2 → BufInv c2) ∧
    (∀ c2, procStep c = .consumed c2 → BufInv c2) ∧
    (∀ c2 p, procStep c = .deliver c2 p → BufInv c2) := by
  refine ⟨?_, ?_, ?_, ?_⟩
  · intro c2 hs
    rw [(procStep_fatal_inv c c2 hs).1]
    exact h
  · intro c2 hs
    rw [(procStep_needMore_inv c c2 hs).1]
    exact h
  · intro c2 hs
    obtain ⟨_, hfit, hsp, _, _, _, hrp, _, _⟩ := procStep_consumed_inv c c2 hs
    unfold BufInv at h ⊢
    omega
  · intro c2 p hs
    obtain ⟨hp, _, hfit, _, hsp, _, _, _, hrp, _, _⟩ :=
      procStep_deliver_inv c c2 p hs
    subst hp
    unfold BufInv at h ⊢
    omega

/-- One buffer-processing step preserves the link invariant (it touches
neither the link nor the connection state). -/
theorem linkInv_procStep (c : SLCD) (h : LinkInv c) :
    (∀ c2, procStep c = .fatal c2 → LinkInv c2) ∧
    (∀ c2, procStep c = .needMore c2 → LinkInv c2) ∧
    (∀ c2, procStep c = .consumed c2 → LinkInv c2) ∧
    (∀ c2 p, procStep c = .deliver c2 p → LinkInv c2) := by
  refine ⟨?_, ?_, ?_, ?_⟩
  · intro c2 hs
    rw [(procStep_fatal_inv c c2 hs).1]
    intro hd
    exact h hd
  · intro c2 hs
    rw [(procStep_needMore_inv c c2 hs).1]
    intro hd
    exact h hd
  · intro c2 hs
    obtain ⟨_, _, _, hl, _, hst, _, _, _⟩ := procStep_consumed_inv c c2 hs
    intro hd
    rw [hl]
    exact h (hst ▸ hd)
  · intro c2 p hs
    obtain ⟨_, _, _, _, _, hl, _, hst, _, _, _⟩ := procStep_deliver_inv c c2 p hs
    intro hd
    rw [hl]
    exact h (hst ▸ hd)

/-- The buffer-processing loop preserves the cursor invariant. -/
theorem bufInv_procLoop : ∀ fuel (c : SLCD), BufInv c →
    (∀ c2 r, procLoop fuel c = .ret c2 r → BufInv c2) ∧
    (∀ c2, procLoop fuel c = .fall c2 → BufInv c2)
  | 0, c, h => by
    constructor
    · intro c2 r hs
      exact absurd hs (by simp [procLoop])
    · intro c2 hs
      have he : c = c2 := by simpa [procLoop] using hs
      exact he ▸ h
  | fuel + 1, c, h => by
    constructor
    · intro c2 r hs
      unfold procLoop at hs
      split at hs
      · exact absurd hs (by simp)
      · split at hs
        · rename_i cf heq
          injection hs with he1 he2
          subst he1
          exact (bufInv_procStep c h).1 _ heq
        · exact absurd hs (by simp)
        · rename_i cf p heq
          injection hs with he1 he2
          subst he1
          exact (bufInv_procStep c h).2.2.2 _ _ heq
        · rename_i cf heq
          exact (bufInv_procLoop fuel cf ((bufInv_procStep c h).2.2.1 _ heq)).1 _ _ hs
    · intro c2 hs
      unfold procLoop at hs
      split at hs
      · injection hs with he
        exact he ▸ h
      · split at hs
        · exact absurd hs (by simp)
        · rename_i cf heq
          injection hs with he
          exact he ▸ (bufInv_procStep c h).2.1 _ heq
        · exact absurd hs (by simp)
        · rename_i cf heq
          exact (bufInv_procLoop fuel cf ((bufInv_procStep c h).2.2.1 _ heq)).2 _ hs

/-- The buffer-processing loop preserves the link invariant. -/
theorem linkInv_procLoop : ∀ fuel (c : SLCD), LinkInv c →
    (∀ c2 r, procLoop fuel c = .ret c2 r → LinkInv c2) ∧
    (∀ c2, procLoop fuel c = .fall c2 → LinkInv c2)
  | 0, c, h => by
    constructor
    · intro c2 r hs
      exact absurd hs (by simp [procLoop])
    · intro c2 hs
      have he : c = c2 := by simpa [procLoop] using hs
      exact he ▸ h
  | fuel + 1, c, h => by
    constructor
    · intro c2 r hs
      unfold procLoop at hs
      split at hs
      · exact absurd hs (by simp)
      · split at hs
        · rename_i cf heq
          injection hs with he1 he2
          subst he1
          exact (linkInv_procStep c h).1 _ heq
        · exact absurd hs (by simp)
        · rename_i cf p heq
          injection hs with he1 he2
          subst he1
          exact (linkInv_procStep c h).2.2.2 _ _ heq
        · rename_i cf heq
          exact (linkInv_procLoop fuel cf ((linkInv_procStep c h).2.2.1 _ heq)).1 _ _ hs
    · intro c2 hs
      unfold procLoop at hs
      split at hs
      · injection hs with he
        exact he ▸ h
      · split at hs
        · exact absurd hs (by simp)
        · rename_i cf heq
          injection hs with he
          exact he ▸ (linkInv_procStep c h).2.1 _ heq
        · exact absurd hs (by simp)
        · rename_i cf heq
          exact (linkInv_procLoop fuel cf ((linkInv_procStep c h).2.2.1 _ heq)).2 _ hs

/-- Compaction preserves the cursor invariant: the unread window moves
to the front. -/
theorem bufInv_compactBuf (c : SLCD) (h : BufInv c) : BufInv (compactBuf c) := by
  unfold compactBuf
  split
  · unfold BufInv at h ⊢
    dsimp only
    omega
  · exact h

/-- Compaction does not touch the link or the connection state. -/
theorem compactBuf_frame (c : SLCD) :
    (compactBuf c).link = c.link ∧ (compactBuf c).stat.sl_state = c.stat.sl_state ∧
    (compactBuf c).terminate = c.terminate := by
  unfold compactBuf
  split <;> exact ⟨rfl, rfl, rfl⟩

/-- The post-loop section preserves the cursor invariant. -/
theorem bufInv_afterLoop (c : SLCD) (h : BufInv c) :
    (∀ c2, afterLoop c = .inl c2 → BufInv c2) ∧
    (∀ c2 r, afterLoop c = .inr (c2, r) → BufInv c2) := by
  have hc := bufInv_compactBuf c h
  constructor
  · intro c2 hs
    unfold afterLoop at hs
    simp only [] at hs
    split at hs
    · exact absurd hs (by simp)
    · split at hs
      · exact absurd hs (by simp)
      · split at hs
        · exact absurd hs (by simp)
        · injection hs with he
          exact he ▸ hc
  · intro c2 r hs
    unfold afterLoop at hs
    simp only [] at hs
    split at hs
    · injection hs with he
      cases he
      exact h
    · split at hs
      · injection hs with he
        cases he
        exact hc
      · split at hs
        · injection hs with he
          cases he
          exact hc
        · exact absurd hs (by simp)

/-- The post-loop section preserves the link invariant. -/
theorem linkInv_afterLoop (c : SLCD) (h : LinkInv c) :
    (∀ c2, afterLoop c = .inl c2 → LinkInv c2) ∧
    (∀ c2 r, afterLoop c = .inr (c2, r) → LinkInv c2) := by
  have hcf := compactBuf_frame c
  have hcl : LinkInv (compactBuf c) := by
    intro hd
    rw [hcf.1]
    exact h (hcf.2.1 ▸ hd)
  constructor
  · intro c2 hs
    unfold afterLoop at hs
    simp only [] at hs
    split at hs
    · exact absurd hs (by simp)
    · split at hs
      · exact absurd hs (by simp)
      · split at hs
        · exact absurd hs (by simp)
        · injection hs with he
          exact he ▸ hcl
  · intro c2 r hs
    unfold afterLoop at hs
    simp only [] at hs
    split at hs
    · injection hs with he
      cases he
      exact h
    · split at hs
      · injection hs with he
        cases he
        intro _
        rfl
      · split at hs
        · injection hs with he
          cases he
          intro _
          rfl
        · exact absurd hs (by simp)

/-- The received bytes are truncated to the buffer room. -/
theorem writeRecv_len (c : SLCD) (bs : List Nat) :
    (writeRecv c bs).2 ≤ 8192 - c.stat.recptr := by
  unfold writeRecv
  dsimp only
  exact le_trans (List.length_take_le _ _) (Nat.le_refl _)

/-- Receiving and applying a read preserves the cursor invariant. -/
theorem bufInv_readApply (c : SLCD) (bs : List Nat) (h : BufInv c) :
    BufInv (applyRead (writeRecv c bs).1 (writeRecv c bs).2) := by
  have hlen := writeRecv_len c bs
  have hw1 : (writeRecv c bs).1.stat.recptr = c.stat.recptr := rfl
  have hw2 : (writeRecv c bs).1.stat.sendptr = c.stat.sendptr := rfl
  unfold applyRead
  split
  · unfold BufInv at h ⊢
    dsimp only
    rw [hw1, hw2]
    omega
  · unfold BufInv at h ⊢
    rw [hw1, hw2]
    exact h

/-- The non-blocking read preserves the cursor invariant. -/
theorem bufInv_readNB (c : SLCD) (e : TickEnv) (h : BufInv c) :
    BufInv (readNB c e).1 := by
  unfold readNB
  split
  · split
    · split <;> exact h
    · exact bufInv_readApply c _ h
  · exact h

/-- The blocking read preserves the cursor invariant. -/
theorem bufInv_readBlocking (c : SLCD) (e : TickEnv) (h : BufInv c) :
    BufInv (readBlocking c e).1 := by
  unfold readBlocking
  split
  · split
    · split
      · exact h
      · split
        · exact h
        · exact bufInv_readApply c _ h
    · split
      · exact h
      · exact h
  · exact h

/-- `applyRead` keeps the link and state. -/
theorem linkInv_applyRead (c : SLCD) (n : Nat) (h : LinkInv c) :
    LinkInv (applyRead c n) := by
  unfold applyRead
  split
  · intro hd
    exact h hd
  · exact h

/-- The non-blocking read preserves the link invariant. -/
theorem linkInv_readNB (c : SLCD) (e : TickEnv) (h : LinkInv c) :
    LinkInv (readNB c e).1 := by
  unfold readNB
  split
  · split
    · split
      · intro _
        rfl
      · exact h
    · refine linkInv_applyRead _ _ ?_
      intro hd
      exact h hd
  · exact h

/-- The blocking read preserves the link invariant. -/
theorem linkInv_readBlocking (c : SLCD) (e : TickEnv) (h : LinkInv c) :
    LinkInv (readBlocking c e).1 := by
  unfold readBlocking
  split
  · split
    · split
      · exact h
      · split
        · intro _
          rfl
        · refine linkInv_applyRead _ _ ?_
          intro hd
          exact h hd
    · split
      · intro _
        rfl
      · exact h
  · exact h

/-- The network-timeout timing touches only triggers and times. -/
theorem timingNetto_frame (c : SLCD) (now : Int) :
    (timingNetto c now).stat.recptr = c.stat.recptr ∧
    (timingNetto c now).stat.sendptr = c.stat.sendptr ∧
    (timingNetto c now).link = c.link ∧
    (timingNetto c now).stat.sl_state = c.stat.sl_state ∧
    (timingNetto c now).terminate = c.terminate := by
  unfold timingNetto
  split
  · split
    · exact ⟨rfl, rfl, rfl, rfl, rfl⟩
    · split <;> exact ⟨rfl, rfl, rfl, rfl, rfl⟩
  · exact ⟨rfl, rfl, rfl, rfl, rfl⟩

/-- The keepalive timing touches only triggers and times. -/
theorem timingKeepalive_frame (c : SLCD) (now : Int) :
    (timingKeepalive c now).stat.recptr = c.stat.recptr ∧
    (timingKeepalive c now).stat.sendptr = c.stat.sendptr ∧
    (timingKeepalive c now).link = c.link ∧
    (timingKeepalive c now).stat.sl_state = c.stat.sl_state ∧
    (timingKeepalive c now).terminate = c.terminate := by
  unfold timingKeepalive
  split
  · split
    · exact ⟨rfl, rfl, rfl, rfl, rfl⟩
    · split <;> exact ⟨rfl, rfl, rfl, rfl, rfl⟩
  · exact ⟨rfl, rfl, rfl, rfl, rfl⟩

/-- The reconnect-delay timing touches only triggers and times. -/
theorem timingNetdly_frame (c : SLCD) (now : Int) :
    (timingNetdly c now).stat.recptr = c.stat.recptr ∧
    (timingNetdly c now).stat.sendptr = c.stat.sendptr ∧
    (timingNetdly c now).link = c.link ∧
    (timingNetdly c now).stat.sl_state = c.stat.sl_state ∧
    (timingNetdly c now).terminate = c.terminate := by
  unfold timingNetdly
  split
  · split
    · exact ⟨rfl, rfl, rfl, rfl, rfl⟩
    · split <;> exact ⟨rfl, rfl, rfl, rfl, rfl⟩
  · exact ⟨rfl, rfl, rfl, rfl, rfl⟩

/-- The timer update section touches only triggers and reference
times. -/
theorem timingUpdate_frame (c : SLCD) (now : Int) :
    (timingUpdate c now).stat.recptr = c.stat.recptr ∧
    (timingUpdate c now).stat.sendptr = c.stat.sendptr ∧
    (timingUpdate c now).link = c.link ∧
    (timingUpdate c now).stat.sl_state = c.stat.sl_state ∧
    (timingUpdate c now).terminate = c.terminate := by
  unfold timingUpdate
  have h1 := timingNetto_frame c now
  have h2 := timingKeepalive_frame (timingNetto c now) now
  have h3 := timingNetdly_frame (timingKeepalive (timingNetto c now) now) now
  exact ⟨h3.1.trans (h2.1.trans h1.1), h3.2.1.trans (h2.2.1.trans h1.2.1),
    h3.2.2.1.trans (h2.2.2.1.trans h1.2.2.1),
    h3.2.2.2.1.trans (h2.2.2.2.1.trans h1.2.2.2.1),
    h3.2.2.2.2.trans (h2.2.2.2.2.trans h1.2.2.2.2)⟩


/-- The timer update preserves the cursor invariant. -/
theorem bufInv_timingUpdate (c : SLCD) (now : Int) (h : BufInv c) :
    BufInv (timingUpdate c now) := by
  have hf := timingUpdate_frame c now
  unfold BufInv at h ⊢
  rw [hf.1, hf.2.1]
  exact h

/-- The timer update preserves the link invariant. -/
theorem linkInv_timingUpdate (c : SLCD) (now : Int) (h : LinkInv c) :
    LinkInv (timingUpdate c now) := by
  have hf := timingUpdate_frame c now
  intro hd
  rw [hf.2.2.1]
  exact h (hf.2.2.2.1 ▸ hd)

/-- The collect entry section touches only the query mode and the
trigger resets. -/
theorem collectEntry_frame (c : SLCD) :
    (∀ c2, collectEntry c = .inl c2 →
      c2.stat.recptr = c.stat.recptr ∧ c2.stat.sendptr = c.stat.sendptr ∧
      c2.link = c.link ∧ c2.stat.sl_state = c.stat.sl_state ∧
      c2.terminate = c.terminate ∧ c2.stat.databuf = c.stat.databuf) ∧
    (∀ c2, collectEntry c = .inr c2 →
      c2.stat.recptr = c.stat.recptr ∧ c2.stat.sendptr = c.stat.sendptr ∧
      c2.link = c.link ∧ c2.stat.sl_state = c.stat.sl_state ∧
      c2.terminate = c.terminate ∧ c2.stat.databuf = c.stat.databuf) := by
  constructor
  · intro c2 hs
    unfold collectEntry at hs
    simp only [] at hs
    split at hs <;>
      (split at hs
       · split at hs
         · exact absurd hs (by simp)
         · injection hs with he
           cases he
           exact ⟨rfl, rfl, rfl, rfl, rfl, rfl⟩
       · injection hs with he
         cases he
         exact ⟨rfl, rfl, rfl, rfl, rfl, rfl⟩)
  · intro c2 hs
    unfold collectEntry at hs
    simp only [] at hs
    split at hs <;>
      (split at hs
       · split at hs
         · injection hs with he
           cases he
           exact ⟨rfl, rfl, rfl, rfl, rfl, rfl⟩
         · exact absurd hs (by simp)
       · exact absurd hs (by simp))

/-- Negotiation preserves the cursor invariant (it zeroes both cursors
on success). -/
theorem bufInv_stepNegotiate (c : SLCD) (b1 b2 : Bool) (h : BufInv c) :
    BufInv (stepNegotiate c b1 b2).1 := by
  unfold stepNegotiate
  split
  · split
    · exact ⟨Nat.le.refl, Nat.zero_le 8192⟩
    · split
      · exact ⟨Nat.le.refl, Nat.zero_le 8192⟩
      · exact h
  · exact h

/-- The non-blocking pass head preserves the cursor invariant. -/
theorem bufInv_preNB (c : SLCD) (e : TickEnv) (h : BufInv c) :
    BufInv (preNB c e).1 := by
  unfold preNB
  split
  · exact bufInv_preData c e h
  · exact h

/-- The blocking pass head preserves the cursor invariant. -/
theorem bufInv_preB (c : SLCD) (e : TickEnv) (h : BufInv c) :
    BufInv (preB c e).1 := by
  unfold preB
  split
  · exact bufInv_preData c e h
  · exact h

/-- The non-blocking pass head preserves the link invariant. -/
theorem linkInv_preNB (c : SLCD) (e : TickEnv) (h : LinkInv c) :
    LinkInv (preNB c e).1 := by
  unfold preNB
  split
  · exact linkInv_preData c e h
  · intro hs
    exact SLState.noConfusion hs

/-- The blocking pass head preserves the link invariant. -/
theorem linkInv_preB (c : SLCD) (e : TickEnv) (h : LinkInv c) :
    LinkInv (preB c e).1 := by
  unfold preB
  split
  · exact linkInv_preData c e h
  · intro _
    rfl

/-- The non-blocking pass body preserves the cursor invariant. -/
theorem bufInv_nbTail (c : SLCD) (e : TickEnv) (h : BufInv c) :
    BufInv (nbTail c e).1 := by
  have hpre := bufInv_preNB c e h
  unfold nbTail
  cases hpl : procLoop ((preNB c e).1.stat.recptr + 1) (preNB c e).1 with
  | ret c3 r => exact (bufInv_procLoop _ _ hpre).1 _ _ hpl
  | fall c3 =>
    have hc3 := (bufInv_procLoop _ _ hpre).2 _ hpl
    dsimp only
    cases haf : afterLoop c3 with
    | inr cr =>
      cases cr with
      | mk c5 r5 => exact (bufInv_afterLoop c3 hc3).2 _ _ haf
    | inl c4 =>
      exact bufInv_timingUpdate _ _
        (bufInv_readNB _ _ ((bufInv_afterLoop c3 hc3).1 _ haf))

/-- The non-blocking pass body preserves the link invariant. -/
theorem linkInv_nbTail (c : SLCD) (e : TickEnv) (h : LinkInv c) :
    LinkInv (nbTail c e).1 := by
  have hpre := linkInv_preNB c e h
  unfold nbTail
  cases hpl : procLoop ((preNB c e).1.stat.recptr + 1) (preNB c e).1 with
  | ret c3 r => exact (linkInv_procLoop _ _ hpre).1 _ _ hpl
  | fall c3 =>
    have hc3 := (linkInv_procLoop _ _ hpre).2 _ hpl
    dsimp only
    cases haf : afterLoop c3 with
    | inr cr =>
      cases cr with
      | mk c5 r5 => exact (linkInv_afterLoop c3 hc3).2 _ _ haf
    | inl c4 =>
      exact linkInv_timingUpdate _ _
        (linkInv_readNB _ _ ((linkInv_afterLoop c3 hc3).1 _ haf))

/-- A blocking pass preserves the cursor invariant. -/
theorem bufInv_tickCollect (c : SLCD) (e : TickEnv) (h : BufInv c) :
    BufInv (tickCollect c e).1 := by
  have hpre := bufInv_preB c e h
  unfold tickCollect
  cases hpl : procLoop ((preB c e).1.stat.recptr + 1) (preB c e).1 with
  | ret c3 r => exact (bufInv_procLoop _ _ hpre).1 _ _ hpl
  | fall c3 =>
    have hc3 := (bufInv_procLoop _ _ hpre).2 _ hpl
    dsimp only
    cases haf : afterLoop c3 with
    | inr cr =>
      cases cr with
      | mk c5 r5 => exact (bufInv_afterLoop c3 hc3).2 _ _ haf
    | inl c4 =>
      exact bufInv_timingUpdate _ _
        (bufInv_readBlocking _ _ ((bufInv_afterLoop c3 hc3).1 _ haf))

/-- A blocking pass preserves the link invariant. -/
theorem linkInv_tickCollect (c : SLCD) (e : TickEnv) (h : LinkInv c) :
    LinkInv (tickCollect c e).1 := by
  have hpre := linkInv_preB c e h
  unfold tickCollect
  cases hpl : procLoop ((preB c e).1.stat.recptr + 1) (preB c e).1 with
  | ret c3 r => exact (linkInv_procLoop _ _ hpre).1 _ _ hpl
  | fall c3 =>
    have hc3 := (linkInv_procLoop _ _ hpre).2 _ hpl
    dsimp only
    cases haf : afterLoop c3 with
    | inr cr =>
      cases cr with
      | mk c5 r5 => exact (linkInv_afterLoop c3 hc3).2 _ _ haf
    | inl c4 =>
      exact linkInv_timingUpdate _ _
        (linkInv_readBlocking _ _ ((linkInv_afterLoop c3 hc3).1 _ haf))

/-- The blocking loop preserves the cursor invariant. -/
theorem bufInv_collectLoop : ∀ (envs : List TickEnv) (c : SLCD), BufInv c →
    BufInv (collectLoop c envs).1
  | [], c, h => h
  | e :: rest, c, h => by
    have htick : BufInv (tickCollect c e).1 := bufInv_tickCollect c e h
    unfold collectLoop
    rcases htc : tickCollect c e with ⟨c2, ro, b⟩
    rw [htc] at htick
    cases ro with
    | some r => exact htick
    | none => exact bufInv_collectLoop rest c2 htick

/-- The blocking loop preserves the link invariant. -/
theorem linkInv_collectLoop : ∀ (envs : List TickEnv) (c : SLCD), LinkInv c →
    LinkInv (collectLoop c envs).1
  | [], c, h => h
  | e :: rest, c, h => by
    have htick : LinkInv (tickCollect c e).1 := linkInv_tickCollect c e h
    unfold collectLoop
    rcases htc : tickCollect c e with ⟨c2, ro, b⟩
    rw [htc] at htick
    cases ro with
    | some r => exact htick
    | none => exact linkInv_collectLoop rest c2 htick

/-- The entry section carries the cursor invariant to either branch. -/
theorem bufInv_collectEntry (c : SLCD) (h : BufInv c) :
    (∀ c2, collectEntry c = .inl c2 → BufInv c2) ∧
    (∀ c2, collectEntry c = .inr c2 → BufInv c2) := by
  constructor
  · intro c2 hs
    have hf := (collectEntry_frame c).1 c2 hs
    unfold BufInv at h ⊢
    rw [hf.1, hf.2.1]
    exact h
  · intro c2 hs
    have hf := (collectEntry_frame c).2 c2 hs
    unfold BufInv at h ⊢
    rw [hf.1, hf.2.1]
    exact h

/-- The entry section carries the link invariant to either branch. -/
theorem linkInv_collectEntry (c : SLCD) (h : LinkInv c) :
    (∀ c2, collectEntry c = .inl c2 → LinkInv c2) ∧
    (∀ c2, collectEntry c = .inr c2 → LinkInv c2) := by
  constructor
  · intro c2 hs
    have hf := (collectEntry_frame c).1 c2 hs
    intro hd
    rw [hf.2.2.1]
    exact h (hf.2.2.2.1 ▸ hd)
  · intro c2 hs
    have hf := (collectEntry_frame c).2 c2 hs
    intro hd
    rw [hf.2.2.1]
    exact h (hf.2.2.2.1 ▸ hd)

/-- The non-blocking collect preserves the cursor invariant. -/
theorem bufInv_sl_collect_nb_size (c : SLCD) (e : TickEnv) (m : Int)
    (h : BufInv c) : BufInv (sl_collect_nb_size c e m).1 := by
  unfold sl_collect_nb_size
  cases hce : collectEntry c with
  | inr c2 => exact (bufInv_collectEntry c h).2 c2 hce
  | inl c2 => exact bufInv_nbTail c2 e ((bufInv_collectEntry c h).1 c2 hce)

/-- The non-blocking collect preserves the link invariant. -/
theorem linkInv_sl_collect_nb_size (c : SLCD) (e : TickEnv) (m : Int)
    (h : LinkInv c) : LinkInv (sl_collect_nb_size c e m).1 := by
  unfold sl_collect_nb_size
  cases hce : collectEntry c with
  | inr c2 => exact (linkInv_collectEntry c h).2 c2 hce
  | inl c2 => exact linkInv_nbTail c2 e ((linkInv_collectEntry c h).1 c2 hce)

/-- The blocking collect preserves the cursor invariant. -/
theorem bufInv_sl_collect (c : SLCD) (envs : List TickEnv) (h : BufInv c) :
    BufInv (sl_collect c envs).1 := by
  unfold sl_collect
  cases hce : collectEntry c with
  | inr c2 => exact (bufInv_collectEntry c h).2 c2 hce
  | inl c2 => exact bufInv_collectLoop envs c2 ((bufInv_collectEntry c h).1 c2 hce)

/-- The blocking collect preserves the link invariant. -/
theorem linkInv_sl_collect (c : SLCD) (envs : List TickEnv) (h : LinkInv c) :
    LinkInv (sl_collect c envs).1 := by
  unfold sl_collect
  cases hce : collectEntry c with
  | inr c2 => exact (linkInv_collectEntry c h).2 c2 hce
  | inl c2 =>
    exact linkInv_collectLoop envs c2 ((linkInv_collectEntry c h).1 c2 hce)

/-- C7: every receive-buffer cursor mutation performed by the collect
functions preserves `0 ≤ sendptr ≤ recptr ≤ 8192`: advancing `sendptr`
over a consumed or delivered packet, compacting with `memmove`, zeroing
both cursors at negotiation, and growing `recptr` by the bytes read;
hence whole collect calls (both variants) preserve the invariant. -/
theorem c7_buffer_cursor_invariant :
    (∀ c c2, BufInv c → procStep c = .consumed c2 → BufInv c2) ∧
    (∀ c c2 p, BufInv c → procStep c = .deliver c2 p → BufInv c2) ∧
    (∀ c, BufInv c → BufInv (compactBuf c)) ∧
    (∀ c b1 b2, BufInv c → BufInv (stepNegotiate c b1 b2).1) ∧
    (∀ c bs, BufInv c → BufInv (applyRead (writeRecv c bs).1 (writeRecv c bs).2)) ∧
    (∀ c e m, BufInv c → BufInv (sl_collect_nb_size c e m).1) ∧
    (∀ c envs, BufInv c → BufInv (sl_collect c envs).1) :=
  ⟨fun c c2 h hs => (bufInv_procStep c h).2.2.1 c2 hs,
   fun c c2 p h hs => (bufInv_procStep c h).2.2.2 c2 p hs,
   fun c h => bufInv_compactBuf c h,
   fun c b1 b2 h => bufInv_stepNegotiate c b1 b2 h,
   fun c bs h => bufInv_readApply c bs h,
   fun c e m h => bufInv_sl_collect_nb_size c e m h,
   fun c envs h => bufInv_sl_collect c envs h⟩

/-- C7 witness: the invariant holds concretely across a full call and a
compaction on the sample session. -/
theorem c7_witness :
    BufInv (sl_collect_nb_size c1State quietEnv 4096).1 ∧
    BufInv (compactBuf c1State) :=
  ⟨c7_buffer_cursor_invariant.2.2.2.2.2.1 c1State quietEnv 4096
      ⟨by decide, by decide⟩,
   c7_buffer_cursor_invariant.2.2.1 c1State ⟨by decide, by decide⟩⟩

/-- C3 amended: the direction of the link invariant that the code
maintains holds at every return of either collect call: whenever
`sl_state` is `Down`, the socket is closed (`link = -1`). The claimed
equivalence fails in the other direction: after a server `ERROR` or
`END` line, a read failure, or the non-blocking terminate branch, the
call returns with `link = -1` while `sl_state` is still `Data` (see the
counterexample). -/
theorem c3_amended_down_implies_closed :
    (∀ c e m, LinkInv c → LinkInv (sl_collect_nb_size c e m).1) ∧
    (∀ c envs, LinkInv c → LinkInv (sl_collect c envs).1) :=
  ⟨fun c e m h => linkInv_sl_collect_nb_size c e m h,
   fun c envs h => linkInv_sl_collect c envs h⟩

/-- C3 witness: the maintained direction holds concretely across a call
on the sample session. -/
theorem c3_witness :
    LinkInv (sl_collect_nb_size c1State quietEnv 4096).1 ∧
    LinkInv (sl_collect c1State [quietEnv]).1 :=
  ⟨c3_amended_down_implies_closed.1 c1State quietEnv 4096
      (fun hd => absurd hd (by decide)),
   c3_amended_down_implies_closed.2 c1State [quietEnv]
      (fun hd => absurd hd (by decide))⟩

/-- The stream update only reports success when the sequence number was
readable. -/
theorem update_stream_seq (s : List SLstream) (p : SLpacket)
    (h : (update_stream s p).2 ≠ -1) : sl_sequence p ≠ -1 := by
  unfold update_stream at h
  simp only [] at h
  split at h
  · exact absurd rfl h
  · assumption

/-- A readable sequence of a non-INFO packet lies in the 24-bit range
under the `SL` signature. -/
theorem sl_sequence_range (p : SLpacket)
    (h : sl_sequence p ≠ -1) (hni : p.slhead.take 6 ≠ infoSignature) :
    p.slhead.take 2 = sigSL ∧ 0 ≤ sl_sequence p ∧ sl_sequence p ≤ 16777215 := by
  by_cases hsig : p.slhead.take 2 ≠ sigSL
  · exfalso
    apply h
    unfold sl_sequence
    rw [if_pos hsig]
  · push_neg at hsig
    have hval : sl_sequence p =
        (if toInt32 (strtoul16 ((p.slhead.drop 2).take 6)).1 < 0 ∨
            16777215 < toInt32 (strtoul16 ((p.slhead.drop 2).take 6)).1 ∨
            (strtoul16 ((p.slhead.drop 2).take 6)).2.headD 0 ≠ 0 then -1
         else toInt32 (strtoul16 ((p.slhead.drop 2).take 6)).1) := by
      unfold sl_sequence
      rw [if_neg (by push_neg; exact hsig), if_neg hni]
    rw [hval] at h ⊢
    split at h
    · exact absurd rfl h
    · rename_i hcond
      push_neg at hcond
      rw [if_neg (by push_neg; exact hcond)]
      exact ⟨hsig, hcond.1, hcond.2.1⟩

/-- The stored record length of a packet view is the framer's answer on
its own record bytes over the window. -/
theorem mkPacket_detect (c : SLCD) :
    (mkPacket c).reclen =
      (detect (mkPacket c).msrecord
        (c.stat.recptr - c.stat.sendptr)).1 := rfl

/-- Every packet the buffer-processing loop hands back satisfies the
delivered-packet property. -/
theorem procLoop_deliveredOk : ∀ fuel (c c2 : SLCD) (p : SLpacket),
    procLoop fuel c = .ret c2 (.packet p) → deliveredOk p
  | 0, c, c2, p, h => absurd h (by simp [procLoop])
  | fuel + 1, c, c2, p, h => by
    unfold procLoop at h
    split at h
    · exact absurd h (by simp)
    · split at h
      · rename_i cf heq
        injection h with he1 he2
        exact absurd he2 (by simp)
      · exact absurd h (by simp)
      · rename_i cf pf heq
        injection h with he1 he2
        injection he2 with he3
        subst he3
        obtain ⟨hp, hpos, hfit, hupd, _⟩ := procStep_deliver_inv c cf pf heq
        intro hni
        have hseq : sl_sequence pf ≠ -1 := by
          apply update_stream_seq c.streams pf
          exact hupd hni
        obtain ⟨h1, h2, h3⟩ := sl_sequence_range pf hseq hni
        subst hp
        exact ⟨h1, h2, h3, hpos,
          ⟨c.stat.recptr - c.stat.sendptr, (mkPacket_detect c).symm⟩⟩
      · rename_i cf heq
        exact procLoop_deliveredOk fuel cf c2 p h

/-- The post-loop section only ever returns `SLTERMINATE`. -/
theorem afterLoop_ret_terminate (c c2 : SLCD) (r : CollectRet)
    (h : afterLoop c = .inr (c2, r)) : r = .terminate := by
  unfold afterLoop at h
  simp only [] at h
  split at h
  · injection h with he
    cases he
    rfl
  · split at h
    · injection h with he
      cases he
      rfl
    · split at h
      · injection h with he
        cases he
        rfl
      · exact absurd h (by simp)

/-- Every packet a non-blocking pass returns satisfies the
delivered-packet property. -/
theorem nbTail_deliveredOk (c : SLCD) (e : TickEnv) (p : SLpacket)
    (h : (nbTail c e).2.1 = .packet p) : deliveredOk p := by
  unfold nbTail at h
  cases hpl : procLoop ((preNB c e).1.stat.recptr + 1) (preNB c e).1 with
  | ret c3 r =>
    rw [hpl] at h
    dsimp only at h
    subst h
    exact procLoop_deliveredOk _ _ _ _ hpl
  | fall c3 =>
    rw [hpl] at h
    dsimp only at h
    cases haf : afterLoop c3 with
    | inr cr =>
      rw [haf] at h
      dsimp only at h
      cases cr with
      | mk c5 r5 =>
        have hr5 := afterLoop_ret_terminate c3 c5 r5 haf
        subst hr5
        exact absurd h.symm (by simp)
    | inl c4 =>
      rw [haf] at h
      dsimp only at h
      exact absurd h.symm (by simp)

/-- Every packet a blocking pass returns satisfies the delivered-packet
property. -/
theorem tickCollect_deliveredOk (c : SLCD) (e : TickEnv) (p : SLpacket)
    (h : (tickCollect c e).2.1 = some (.packet p)) : deliveredOk p := by
  unfold tickCollect at h
  cases hpl : procLoop ((preB c e).1.stat.recptr + 1) (preB c e).1 with
  | ret c3 r =>
    rw [hpl] at h
    dsimp only at h
    injection h with he
    subst he
    exact procLoop_deliveredOk _ _ _ _ hpl
  | fall c3 =>
    rw [hpl] at h
    dsimp only at h
    cases haf : afterLoop c3 with
    | inr cr =>
      rw [haf] at h
      dsimp only at h
      cases cr with
      | mk c5 r5 =>
        have hr5 := afterLoop_ret_terminate c3 c5 r5 haf
        injection h with he
        rw [hr5] at he
        exact absurd he (by simp)
    | inl c4 =>
      rw [haf] at h
      dsimp only at h
      exact absurd h (by simp)

/-- Every packet the blocking loop returns satisfies the
delivered-packet property. -/
theorem collectLoop_deliveredOk : ∀ (envs : List TickEnv) (c : SLCD) (p : SLpacket),
    (collectLoop c envs).2.1 = some (.packet p) → deliveredOk p
  | [], c, p, h => absurd h (by simp [collectLoop])
  | e :: rest, c, p, h => by
    unfold collectLoop at h
    rcases htc : tickCollect c e with ⟨c2, ro, b⟩
    rw [htc] at h
    cases ro with
    | some r =>
      dsimp only at h
      injection h with he
      subst he
      apply tickCollect_deliveredOk c e p
      rw [htc]
    | none =>
      dsimp only at h
      exact collectLoop_deliveredOk rest c2 p h

/-- C8: every data packet (non-`SLINFO` header) delivered by either
collect call has a header with the `SL` signature whose six hex digits
parse (by `sl_sequence`) into the 24-bit range, and its delivered
`reclen` is the positive record length the framer computed over the
packet's own buffer bytes. -/
theorem c8_delivered_data_packet :
    (∀ c e m p, (sl_collect_nb_size c e m).2.1 = .packet p → deliveredOk p) ∧
    (∀ c envs p, (sl_collect c envs).2.1 = some (.packet p) → deliveredOk p) := by
  constructor
  · intro c e m p h
    unfold sl_collect_nb_size at h
    cases hce : collectEntry c with
    | inr c2 =>
      rw [hce] at h
      exact absurd h.symm (by simp)
    | inl c2 =>
      rw [hce] at h
      exact nbTail_deliveredOk c2 e p h
  · intro c envs p h
    unfold sl_collect at h
    cases hce : collectEntry c with
    | inr c2 =>
      rw [hce] at h
      dsimp only at h
      injection h with he
      exact absurd he (by simp)
    | inl c2 =>
      rw [hce] at h
      exact collectLoop_deliveredOk envs c2 p h

/-- C8 witness: the concrete matching data packet of `c8State` is
delivered and satisfies the property. -/
theorem c8_witness : deliveredOk pkt1 :=
  c8_delivered_data_packet.1 c8State quietEnv 4096 pkt1 (by decide)

/-- With the terminate flag up the trap door fires. -/
theorem afterLoop_term (c : SLCD) (ht : c.terminate = true) :
    afterLoop c = .inr (c, .terminate) := by
  unfold afterLoop
  rw [if_pos ht]

/-- A stuck window transfers along equal buffers and cursors. -/
theorem stuckWindow_transfer (a b : SLstat)
    (h1 : b.databuf = a.databuf) (h2 : b.recptr = a.recptr)
    (h3 : b.sendptr = a.sendptr) (h : stuckWindow a) : stuckWindow b := by
  unfold stuckWindow at h ⊢
  rw [h1, h2, h3]
  exact h

/-- From a stuck window the buffer-processing loop immediately exits
without delivering, keeping the buffer, the flags and the link. -/
theorem procLoop_stuck (fuel : Nat) (c : SLCD) (hw : stuckWindow c.stat) :
    ∃ c2, (procLoop (fuel + 1) c = .fall c2 ∨
        procLoop (fuel + 1) c = .ret c2 .terminate) ∧
      c2.stat.databuf = c.stat.databuf ∧ c2.stat.recptr = c.stat.recptr ∧
      c2.stat.sendptr = c.stat.sendptr ∧ c2.terminate = c.terminate ∧
      c2.link = c.link := by
  have hrfl : (detect (c.stat.databuf.drop (c.stat.sendptr + 8))
      (c.stat.recptr - c.stat.sendptr)).1 = (mkPacket c).reclen := rfl
  unfold procLoop
  split
  · exact ⟨c, Or.inl rfl, rfl, rfl, rfl, rfl, rfl⟩
  · rename_i hwin
    split
    · rename_i c2 heq
      obtain ⟨hc2, _⟩ := procStep_fatal_inv c c2 heq
      subst hc2
      exact ⟨_, Or.inr rfl, rfl, rfl, rfl, rfl, rfl⟩
    · rename_i c2 heq
      obtain ⟨hc2, _⟩ := procStep_needMore_inv c c2 heq
      subst hc2
      exact ⟨_, Or.inl rfl, rfl, rfl, rfl, rfl, rfl⟩
    · rename_i c2 p heq
      obtain ⟨hp, hpos, hfit, _⟩ := procStep_deliver_inv c c2 p heq
      subst hp
      exfalso
      unfold stuckWindow at hw
      rw [hrfl] at hw
      rcases hw with hw | hw | hw | hw <;> omega
    · rename_i c2 heq
      obtain ⟨hpos, hfit, _⟩ := procStep_consumed_inv c c2 heq
      exfalso
      unfold stuckWindow at hw
      rw [hrfl] at hw
      rcases hw with hw | hw | hw | hw <;> omega

/-- Given enough fuel, the buffer-processing loop either delivers a
packet or ends in a stuck window, and it never flips the terminate
flag. -/
theorem procLoop_term_cases : ∀ fuel (c : SLCD),
    c.stat.recptr - c.stat.sendptr < fuel →
    (∃ c2 p, procLoop fuel c = .ret c2 (.packet p) ∧
      c2.terminate = c.terminate) ∨
    (∃ c2, (procLoop fuel c = .ret c2 .terminate ∨ procLoop fuel c = .fall c2) ∧
      stuckWindow c2.stat ∧ c2.terminate = c.terminate)
  | 0, c, h => absurd h (by omega)
  | fuel + 1, c, h => by
    unfold procLoop
    split
    · rename_i hwin
      exact Or.inr ⟨c, Or.inr rfl, Or.inl hwin, rfl⟩
    · rename_i hwin
      split
      · rename_i c2 heq
        obtain ⟨hc2, hneg⟩ := procStep_fatal_inv c c2 heq
        refine Or.inr ⟨c2, Or.inl rfl, ?_, by rw [hc2]; rfl⟩
        subst hc2
        exact Or.inr (Or.inl hneg)
      · rename_i c2 heq
        obtain ⟨hc2, hg⟩ := procStep_needMore_inv c c2 heq
        refine Or.inr ⟨c2, Or.inr rfl, ?_, by rw [hc2]; rfl⟩
        subst hc2
        rcases hg with h0 | hlt
        · exact Or.inr (Or.inr (Or.inl h0))
        · exact Or.inr (Or.inr (Or.inr hlt))
      · rename_i c2 p heq
        obtain ⟨_, _, _, _, _, _, hterm, _⟩ := procStep_deliver_inv c c2 p heq
        exact Or.inl ⟨c2, p, rfl, hterm⟩
      · rename_i c2 heq
        obtain ⟨hpos, hfit, hsp, _, hterm, _, hrp, _, _⟩ :=
          procStep_consumed_inv c c2 heq
        have hlt : c2.stat.recptr - c2.stat.sendptr < fuel := by
          rw [hrp, hsp]
          omega
        rcases procLoop_term_cases fuel c2 hlt with
          ⟨c3, p, hres, ht3⟩ | ⟨c3, hres, hsw, ht3⟩
        · exact Or.inl ⟨c3, p, hres, ht3.trans hterm⟩
        · exact Or.inr ⟨c3, hres, hsw, ht3.trans hterm⟩

/-- A terminating non-blocking pass from a stuck window returns
`SLTERMINATE` without network contact and stays stuck. -/
theorem nbTail_stuck (c : SLCD) (e : TickEnv) (ht : c.terminate = true)
    (hw : stuckWindow c.stat) :
    (nbTail c e).2.1 = .terminate ∧ (nbTail c e).2.2 = false ∧
    (nbTail c e).1.terminate = true ∧ stuckWindow (nbTail c e).1.stat := by
  have hpre : preNB c e = (termBranchNB c, false) := by
    unfold preNB
    rw [if_neg (by simp [ht])]
  have hwt : stuckWindow (termBranchNB c).stat := hw
  obtain ⟨c2, hres, hdb, hrp, hsp, hterm2, _⟩ :=
    procLoop_stuck (termBranchNB c).stat.recptr (termBranchNB c) hwt
  have ht2 : c2.terminate = true := by
    rw [hterm2]
    exact ht
  have hw2 : stuckWindow c2.stat :=
    stuckWindow_transfer (termBranchNB c).stat c2.stat hdb hrp hsp hwt
  unfold nbTail
  rw [hpre]
  dsimp only
  rcases hres with hfall | hret
  · rw [hfall]
    dsimp only
    rw [afterLoop_term c2 ht2]
    exact ⟨rfl, rfl, ht2, hw2⟩
  · rw [hret]
    exact ⟨rfl, rfl, ht2, hw2⟩

/-- A terminating blocking pass from a stuck window returns
`SLTERMINATE` without network contact. -/
theorem tickCollect_stuck (c : SLCD) (e : TickEnv) (ht : c.terminate = true)
    (hw : stuckWindow c.stat) :
    (tickCollect c e).2.1 = some .terminate ∧ (tickCollect c e).2.2 = false := by
  have hpre : preB c e = (termBranchB c, false) := by
    unfold preB
    rw [if_neg (by simp [ht])]
  have hwt : stuckWindow (termBranchB c).stat := hw
  obtain ⟨c2, hres, _, _, _, hterm2, _⟩ :=
    procLoop_stuck (termBranchB c).stat.recptr (termBranchB c) hwt
  have ht2 : c2.terminate = true := by
    rw [hterm2]
    exact ht
  unfold tickCollect
  rw [hpre]
  dsimp only
  rcases hres with hfall | hret
  · rw [hfall]
    dsimp only
    rw [afterLoop_term c2 ht2]
    exact ⟨rfl, rfl⟩
  · rw [hret]
    exact ⟨rfl, rfl⟩

/-- The entry section goes to the terminal branch only with a closed
link and a failing configuration check, which it hands on. -/
theorem collectEntry_inr_inv (c c2 : SLCD) (h : collectEntry c = .inr c2) :
    c2.link = -1 ∧ sl_checkslcd c2 = true := by
  unfold collectEntry at h
  simp only [] at h
  split at h <;>
    (split at h
     · split at h
       · rename_i hlink hch
         injection h with he
         subst he
         exact ⟨hlink, hch⟩
       · exact absurd h (by simp)
     · exact absurd h (by simp))

/-- With a closed link and a failing configuration check, the entry
section takes the terminal branch. -/
theorem collectEntry_inr_of (c : SLCD) (hl : c.link = -1)
    (hch : sl_checkslcd c = true) : ∃ d, collectEntry c = Sum.inr d := by
  cases hinfo : c.info.isSome
  · unfold collectEntry
    simp only [hinfo, Bool.false_eq_true, reduceIte]
    rw [if_pos hl, if_pos hch]
    exact ⟨_, rfl⟩
  · unfold collectEntry
    simp only [hinfo, reduceIte]
    rw [if_pos (show ({ c with stat.query_mode := QueryMode.infoQuery } :
        SLCD).link = -1 from hl)]
    rw [if_pos (show sl_checkslcd { c with stat.query_mode :=
        QueryMode.infoQuery } = true from hch)]
    exact ⟨_, rfl⟩

/-- From a stuck terminating descriptor the entry section's proceed
branch keeps the terminate flag and the stuck window. -/
theorem stuckT_entry_inl (c c2 : SLCD) (h : StuckT c)
    (hce : collectEntry c = .inl c2) :
    c2.terminate = true ∧ stuckWindow c2.stat := by
  obtain ⟨ht, hd⟩ := h
  have hf := (collectEntry_frame c).1 c2 hce
  refine ⟨by rw [hf.2.2.2.2.1]; exact ht, ?_⟩
  rcases hd with ⟨hl, hch⟩ | hw
  · obtain ⟨d, hr⟩ := collectEntry_inr_of c hl hch
    rw [hce] at hr
    exact absurd hr (by simp)
  · exact stuckWindow_transfer c.stat c2.stat hf.2.2.2.2.2 hf.1 hf.2.1 hw

/-- A non-blocking collect call on a stuck terminating descriptor
returns `SLTERMINATE`, contacts nothing, and leaves the descriptor
stuck. -/
theorem stuckT_nb (c : SLCD) (e : TickEnv) (m : Int) (h : StuckT c) :
    (sl_collect_nb_size c e m).2.1 = .terminate ∧
    (sl_collect_nb_size c e m).2.2 = false ∧
    StuckT (sl_collect_nb_size c e m).1 := by
  unfold sl_collect_nb_size
  cases hce : collectEntry c with
  | inr c2 =>
    obtain ⟨hl2, hc2⟩ := collectEntry_inr_inv c c2 hce
    have hf := (collectEntry_frame c).2 c2 hce
    exact ⟨rfl, rfl, by rw [hf.2.2.2.2.1]; exact h.1, Or.inl ⟨hl2, hc2⟩⟩
  | inl c2 =>
    obtain ⟨ht2, hw2⟩ := stuckT_entry_inl c c2 h hce
    have hs := nbTail_stuck c2 e ht2 hw2
    exact ⟨hs.1, hs.2.1, hs.2.2.1, Or.inr hs.2.2.2⟩

/-- Stuckness persists over any sequence of non-blocking calls. -/
theorem stuckT_nbIter : ∀ (l : List (TickEnv × Int)) (c : SLCD), StuckT c →
    StuckT (nbIter c l)
  | [], _, h => h
  | em :: rest, c, h =>
    stuckT_nbIter rest _ ((stuckT_nb c em.1 em.2 h).2.2)

/-- A blocking collect call on a stuck terminating descriptor returns
`SLTERMINATE` without network contact. -/
theorem stuckT_collect (c : SLCD) (e3 : TickEnv) (envs3 : List TickEnv)
    (h : StuckT c) :
    (sl_collect c (e3 :: envs3)).2.1 = some .terminate ∧
    (sl_collect c (e3 :: envs3)).2.2 = false := by
  unfold sl_collect
  cases hce : collectEntry c with
  | inr c2 => exact ⟨rfl, rfl⟩
  | inl c2 =>
    obtain ⟨ht2, hw2⟩ := stuckT_entry_inl c c2 h hce
    have hs := tickCollect_stuck c2 e3 ht2 hw2
    unfold collectLoop
    rcases htc : tickCollect c2 e3 with ⟨c3, ro, b⟩
    have hro : ro = some .terminate := by
      have h1 := hs.1
      rw [htc] at h1
      exact h1
    have hb : b = false := by
      have h2 := hs.2
      rw [htc] at h2
      exact h2
    subst hro
    subst hb
    exact ⟨rfl, rfl⟩

/-- A terminating non-blocking call never contacts the network, and if
it returns `SLTERMINATE` the descriptor is left stuck. -/
theorem nb_term_first (c : SLCD) (e : TickEnv) (m : Int)
    (ht : c.terminate = true) :
    (sl_collect_nb_size c e m).2.2 = false ∧
    ((sl_collect_nb_size c e m).2.1 = .terminate →
      StuckT (sl_collect_nb_size c e m).1) := by
  unfold sl_collect_nb_size
  cases hce : collectEntry c with
  | inr c2 =>
    obtain ⟨hl2, hc2⟩ := collectEntry_inr_inv c c2 hce
    have hf := (collectEntry_frame c).2 c2 hce
    exact ⟨rfl, fun _ => ⟨by rw [hf.2.2.2.2.1]; exact ht, Or.inl ⟨hl2, hc2⟩⟩⟩
  | inl c2 =>
    have hf := (collectEntry_frame c).1 c2 hce
    have ht2 : c2.terminate = true := by
      rw [hf.2.2.2.2.1]
      exact ht
    have hpre : preNB c2 e = (termBranchNB c2, false) := by
      unfold preNB
      rw [if_neg (by simp [ht2])]
    dsimp only
    unfold nbTail
    rw [hpre]
    dsimp only
    have hfuel : (termBranchNB c2).stat.recptr - (termBranchNB c2).stat.sendptr <
        (termBranchNB c2).stat.recptr + 1 := by omega
    rcases procLoop_term_cases ((termBranchNB c2).stat.recptr + 1)
        (termBranchNB c2) hfuel with ⟨c3, p, hres, ht3⟩ | ⟨c3, hres, hsw, ht3⟩
    · rw [hres]
      exact ⟨rfl, fun hcon => absurd hcon (by simp)⟩
    · have ht3t : c3.terminate = true := by
        rw [ht3]
        exact ht2
      rcases hres with hret | hfall
      · rw [hret]
        exact ⟨rfl, fun _ => ⟨ht3t, Or.inr hsw⟩⟩
      · rw [hfall]
        dsimp only
        rw [afterLoop_term c3 ht3t]
        exact ⟨rfl, fun _ => ⟨ht3t, Or.inr hsw⟩⟩

/-- C4 amended: Terminate is sticky in the caller-driven way it arises:
once the terminate flag is set and a collect call has returned
`SLTERMINATE`, every subsequent collect call — after any number of
further non-blocking calls, and in either variant — returns
`SLTERMINATE` without network contact (no connect, send, or receive).
The server-driven ways (`ERROR`, `END`) are not sticky: the descriptor
is left reconnectable and the next call may contact the network and
return a non-terminate result (see the counterexample). -/
theorem c4_terminate_flag_sticky (c : SLCD) (e : TickEnv) (m : Int)
    (hterm : c.terminate = true)
    (hret : (sl_collect_nb_size c e m).2.1 = .terminate) :
    (sl_collect_nb_size c e m).2.2 = false ∧
    ∀ rest e2 m2 e3 envs3,
      (sl_collect_nb_size (nbIter (sl_collect_nb_size c e m).1 rest) e2 m2).2.1 =
        .terminate ∧
      (sl_collect_nb_size (nbIter (sl_collect_nb_size c e m).1 rest) e2 m2).2.2 =
        false ∧
      (sl_collect (nbIter (sl_collect_nb_size c e m).1 rest) (e3 :: envs3)).2.1 =
        some .terminate ∧
      (sl_collect (nbIter (sl_collect_nb_size c e m).1 rest) (e3 :: envs3)).2.2 =
        false := by
  have h1 := nb_term_first c e m hterm
  refine ⟨h1.1, ?_⟩
  intro rest e2 m2 e3 envs3
  have hstuck := stuckT_nbIter rest _ (h1.2 hret)
  have h2 := stuckT_nb _ e2 m2 hstuck
  have h3 := stuckT_collect _ e3 envs3 hstuck
  exact ⟨h2.1, h2.2.1, h3.1, h3.2⟩

/-- C4 witness: concrete stickiness after a caller-terminated call. -/
theorem c4_witness :
    (sl_collect_nb_size (nbIter (sl_collect_nb_size cTermState quietEnv 4096).1
        [(reconnEnv, 512)]) reconnEnv 4096).2.1 = .terminate ∧
    (sl_collect_nb_size (nbIter (sl_collect_nb_size cTermState quietEnv 4096).1
        [(reconnEnv, 512)]) reconnEnv 4096).2.2 = false := by
  have h := c4_terminate_flag_sticky cTermState quietEnv 4096 (by decide)
    (by decide)
  have h2 := h.2 [(reconnEnv, 512)] reconnEnv 4096 reconnEnv []
  exact ⟨h2.1, h2.2.1⟩

/-- C9 witness: the concrete matching update of a one-entry table. -/
theorem c9_witness :
    (update_stream c8State.streams pkt1).2 = 0 ∧
    ((update_stream c8State.streams pkt1).1.getD 0 dfltStream).seqnum =
      sl_sequence pkt1 ∧
    ((update_stream c8State.streams pkt1).1.getD 0 dfltStream).timestamp =
      recTimestamp pkt1.msrecord := by
  have h := c9_update_stream_updates_matches c8State.streams pkt1
    (by decide) (Or.inr (by decide))
  refine ⟨h.1, ?_, ?_⟩
  · exact (h.2.2.2 _ _ rfl (by decide) 0 (by decide) (by decide)).1
  · exact (h.2.2.2 _ _ rfl (by decide) 0 (by decide) (by decide)).2

end Slink
